import Mathlib

/-!
# libballistics: solution table, stability model and trajectory integrator

A shallow embedding of `src/ballistics.c`.

* C `double` values are elements of a linear ordered field `F`; the field
  operations `+ - * /` and integer powers (`pow(t,2)`, `pow(d,3)`) are exact.
* Everything the translation unit takes from elsewhere is a field of `Env`: the
  libm functions that are not field operations (`pow` at a fractional
  exponent, `cbrt`, `cos`, `sin`, `tan`, `atan`, the constant `M_PI`) and the
  library helpers and constants declared in headers that are not part of the
  sources at hand (`retard`, `retardModified`, `headwind`, `crosswind`,
  `windage`, `deg_to_rad`, `rad_to_moa`, `GRAVITY`,
  `BALLISTICS_COMPUTATION_MAX_YARDS`).
* The sample array is a list of `Point`s whose length is the allocated
  capacity; a read or write outside it is reported instead of performed.
* The `for (t = 0;; t = t + dt)` loop is run with a step budget; running out
  of budget is reported as `Outcome.timeout`.
* For the divisions, the entry state and the loop bodies are written a second
  time so that every `/` notes its divisor (`initTraced`, `passTraced`); the
  traced versions are shown to compute what the plain ones compute.
* Where a property depends on rounding, the statements involved are evaluated
  in IEEE 754 binary64 arithmetic on rationals (`binary64`).
-/

namespace LibBallistics

/-! ## Data model -/

/-- A ballistics solution for a projectile at a certain yardage (`Point`). -/
structure Point (F : Type) where
  range_yards : F
  path_inches : F
  moa_correction : F
  seconds : F
  windage_inches : F
  spindrift_inches : F
  corrected_windage : F
  windage_moa : F
  corrected_windage_moa : F
  v_fps : F
  vx_fps : F
  vy_fps : F

/-- The solution table (`struct Ballistics`): the sample block and the number
of valid rows. The length of `yardages` is the size of the allocated block. -/
structure Ballistics (F : Type) where
  yardages : List (Point F)
  max_yardage : Int

/-- The drag curve families named by the header. -/
inductive DragFunction where
  | G1 | G2 | G3 | G5 | G6 | G7 | G8
  deriving DecidableEq

/-- What `ballistics.c` uses but does not define. -/
structure Env (F : Type) where
  BALLISTICS_COMPUTATION_MAX_YARDS : Nat
  GRAVITY : F
  M_PI : F
  pow : F → F → F
  cbrt : F → F
  cos : F → F
  sin : F → F
  tan : F → F
  atan : F → F
  deg_to_rad : F → F
  rad_to_moa : F → F
  headwind : F → F → F
  crosswind : F → F → F
  windage : F → F → F → F → F
  retard : DragFunction → F → F → F
  retardModified : DragFunction → F → F → F → F

/-- The contents of memory handed out by `malloc`: `Ballistics_alloc` does not
initialise the block or the row count. -/
structure Heap (F : Type) where
  points : Nat → Point F
  count : Int

variable {F : Type} [LinearOrderedField F]

/-! ## Allocation and accessors -/

/-- The function `Ballistics_alloc`: a block of `BALLISTICS_COMPUTATION_MAX_YARDS` points,
left as `malloc` returned it. -/
def Ballistics_alloc (E : Env F) (h : Heap F) : Ballistics F :=
  { yardages := (List.range E.BALLISTICS_COMPUTATION_MAX_YARDS).map h.points
    max_yardage := h.count }

/-- The array read `ballistics->yardages[yardage]` with an `int` index: `none`
when the index is outside the allocated block. -/
def readPoint (b : Ballistics F) (yardage : Int) : Option (Point F) :=
  if 0 ≤ yardage then b.yardages[yardage.toNat]? else none

/-- The accessor `Ballistics_get_range`: the range, in yards. -/
def Ballistics_get_range (b : Ballistics F) (yardage : Int) : Option F :=
  if yardage < b.max_yardage then (readPoint b yardage).map Point.range_yards
  else some 0

/-- The accessor `Ballistics_get_path`: the projectile path, in inches. -/
def Ballistics_get_path (b : Ballistics F) (yardage : Int) : Option F :=
  if yardage < b.max_yardage then (readPoint b yardage).map Point.path_inches
  else some 0

/-- The accessor `Ballistics_get_moa`: the elevation correction, in MOA. -/
def Ballistics_get_moa (b : Ballistics F) (yardage : Int) : Option F :=
  if yardage < b.max_yardage then (readPoint b yardage).map Point.moa_correction
  else some 0

/-- The accessor `Ballistics_get_time`: the time of flight. -/
def Ballistics_get_time (b : Ballistics F) (yardage : Int) : Option F :=
  if yardage < b.max_yardage then (readPoint b yardage).map Point.seconds
  else some 0

/-- The accessor `Ballistics_get_windage`: the windage, in inches. -/
def Ballistics_get_windage (b : Ballistics F) (yardage : Int) : Option F :=
  if yardage < b.max_yardage then (readPoint b yardage).map Point.windage_inches
  else some 0

/-- The accessor `Ballistics_get_spindrift`: the spin drift, in inches. -/
def Ballistics_get_spindrift (b : Ballistics F) (yardage : Int) : Option F :=
  if yardage < b.max_yardage then (readPoint b yardage).map Point.spindrift_inches
  else some 0

/-- The accessor `Ballistics_get_windage_moa`: the windage, in MOA. -/
def Ballistics_get_windage_moa (b : Ballistics F) (yardage : Int) : Option F :=
  if yardage < b.max_yardage then (readPoint b yardage).map Point.windage_moa
  else some 0

/-- The accessor `Ballistics_get_corrected_windage`: the windage with spin drift, in inches. -/
def Ballistics_get_corrected_windage (b : Ballistics F) (yardage : Int) : Option F :=
  if yardage < b.max_yardage then (readPoint b yardage).map Point.corrected_windage
  else some 0

/-- The accessor `Ballistics_get_corrected_windage_moa`: the windage with spin drift, in MOA. -/
def Ballistics_get_corrected_windage_moa (b : Ballistics F) (yardage : Int) : Option F :=
  if yardage < b.max_yardage then (readPoint b yardage).map Point.corrected_windage_moa
  else some 0

/-- The accessor `Ballistics_get_v_fps`: the total velocity. -/
def Ballistics_get_v_fps (b : Ballistics F) (yardage : Int) : Option F :=
  if yardage < b.max_yardage then (readPoint b yardage).map Point.v_fps
  else some 0

/-- The accessor `Ballistics_get_vx_fps`: the velocity along the bore. -/
def Ballistics_get_vx_fps (b : Ballistics F) (yardage : Int) : Option F :=
  if yardage < b.max_yardage then (readPoint b yardage).map Point.vx_fps
  else some 0

/-- The accessor `Ballistics_get_vy_fps`: the velocity across the bore. -/
def Ballistics_get_vy_fps (b : Ballistics F) (yardage : Int) : Option F :=
  if yardage < b.max_yardage then (readPoint b yardage).map Point.vy_fps
  else some 0

/-! ## Stability and correction model -/

/-- The function `calculateGS`: Miller stability factor with velocity and atmosphere
corrections. -/
def calculateGS (E : Env F)
    (bulletGrains twistDenominator caliber lengthOfBullet velocity temp inHg : F) : F :=
  let m := bulletGrains
  let t := twistDenominator / caliber
  let d := caliber
  let l := lengthOfBullet / caliber
  let uncorrectedGS := (30 * m) / (t ^ 2 * d ^ 3 * (l * (1 + l ^ 2)))
  let veloCorrection := velocity / 2800
  let veloCorrection := E.cbrt veloCorrection
  let tempCorrection := ((temp + 460) * 29.92) / ((59 + 460) * inHg)
  uncorrectedGS * veloCorrection * tempCorrection

/-- The function `calculateVerticalDeflection`, in MOA. -/
def calculateVerticalDeflection (gs length caliber : F) : F :=
  0.01 * gs - 0.0024 * (length / caliber) + 0.032

/-- The function `calculateSpinDriftOffsetIn`, in inches. -/
def calculateSpinDriftOffsetIn (E : Env F) (gs tof : F) : F :=
  -(1.25 * (gs + 1.2) * E.pow tof 1.83)

/-! ## Trajectory integrator -/

/-- The arguments of `Ballistics_solve` that follow the output pointer. -/
structure SolveArgs (F : Type) where
  drag_function : DragFunction
  drag_coefficient : F
  vi : F
  sight_height : F
  shooting_angle : F
  zero_angle : F
  wind_speed : F
  wind_angle : F

/-- The arguments of `Ballistics_solve_modified_vertDeflect` that follow the
output pointer: those of `Ballistics_solve` and the bullet data. -/
structure DeflectArgs (F : Type) extends SolveArgs F where
  caliberInInches : F
  bulletLengthInInches : F
  temp : F
  inHg : F
  twistDenominator : F
  velocity : F
  bulletGrains : F
  formFactor : F

/-- The local variables of a solver together with the sample block it fills.
`writes` is not a program variable: it lists, oldest first, the indices at
which a sample has been stored. -/
structure Loop (F : Type) where
  t : F
  dt : F
  v : F
  vx : F
  vx1 : F
  vy : F
  vy1 : F
  dv : F
  dvx : F
  dvy : F
  x : F
  y : F
  n : Nat
  yardages : List (Point F)
  writes : List Nat

/-- How a run of a solver loop ends: it leaves the loop in state `s`, it
touches memory outside the sample block, or the step budget runs out. -/
inductive Outcome (σ : Type) where
  | done (s : σ)
  | fault
  | timeout

/-- The loop increment `t = t + dt`. -/
def advance (s : Loop F) : Loop F :=
  { s with t := s.t + s.dt }

/-- The test `fabs(vy)>fabs(3*vx) || n>=BALLISTICS_COMPUTATION_MAX_YARDS`. -/
def exitTest (E : Env F) (s : Loop F) : Bool :=
  decide (|s.vy| > |3 * s.vx|) || decide (E.BALLISTICS_COMPUTATION_MAX_YARDS ≤ s.n)

/-- The loop `for (t = 0;; t = t + dt) { body; if (test) break; }`,
run for at most `fuel` passes. -/
def forLoop (body : Loop F → Option (Loop F)) (test : Loop F → Bool) :
    Nat → Loop F → Outcome (Loop F)
  | 0, _ => Outcome.timeout
  | fuel + 1, s =>
    match body s with
    | none => Outcome.fault
    | some s' => if test s' then Outcome.done s' else forLoop body test fuel (advance s')

/-- The state at the end of pass number `k` (counted from 0) through the loop
body, when the loop gets that far. -/
def passEnd (body : Loop F → Option (Loop F)) (test : Loop F → Bool) :
    Nat → Loop F → Option (Loop F)
  | 0, s => body s
  | k + 1, s =>
    match body s with
    | none => none
    | some s' => if test s' then none else passEnd body test k (advance s')

/-- The store of a sample by `Ballistics_solve` at `yardages[n]`, followed by
`n++`. Fields the source does not assign keep what the block held. -/
def Ballistics_solve.record (E : Env F) (a : SolveArgs F) (cwind : F) (s : Loop F) :
    Option (Loop F) :=
  match s.yardages[s.n]? with
  | none => none
  | some p =>
    let windage_inches := E.windage cwind a.vi s.x (s.t + s.dt)
    some { s with
      yardages := s.yardages.set s.n
        { p with
          range_yards := s.x / 3
          path_inches := s.y * 12
          moa_correction := -E.rad_to_moa (E.atan (s.y / s.x))
          seconds := s.t + s.dt
          windage_inches := windage_inches
          windage_moa := E.rad_to_moa (E.atan ((windage_inches / 12) / s.x))
          v_fps := s.v
          vx_fps := s.vx
          vy_fps := s.vy }
      n := s.n + 1
      writes := s.writes ++ [s.n] }

/-- One pass through the loop body of `Ballistics_solve`, up to the exit test. -/
def Ballistics_solve.body (E : Env F) (a : SolveArgs F) (hwind cwind gx gy : F)
    (s : Loop F) : Option (Loop F) :=
  let s := { s with vx1 := s.vx }
  let s := { s with vy1 := s.vy }
  let s := { s with v := E.pow (s.vx ^ 2 + s.vy ^ 2) 0.5 }
  let s := { s with dt := 0.5 / s.v }
  let s := { s with dv := E.retard a.drag_function a.drag_coefficient (s.v + hwind) }
  let s := { s with dvx := -(s.vx / s.v) * s.dv }
  let s := { s with dvy := -(s.vy / s.v) * s.dv }
  let s := { s with vx := s.vx + s.dt * s.dvx + s.dt * gx }
  let s := { s with vy := s.vy + s.dt * s.dvy + s.dt * gy }
  match (if s.x / 3 ≥ (s.n : F) then Ballistics_solve.record E a cwind s else some s) with
  | none => none
  | some s =>
    some { s with
      x := s.x + s.dt * (s.vx + s.vx1) / 2
      y := s.y + s.dt * (s.vy + s.vy1) / 2 }

/-- The state of `Ballistics_solve` on entry to its loop. -/
def Ballistics_solve.init (E : Env F) (h : Heap F) (a : SolveArgs F) : Loop F :=
  { t := 0, dt := 0, v := 0
    vx := a.vi * E.cos (E.deg_to_rad a.zero_angle)
    vx1 := 0
    vy := a.vi * E.sin (E.deg_to_rad a.zero_angle)
    vy1 := 0
    dv := 0, dvx := 0, dvy := 0
    x := 0
    y := -a.sight_height / 12
    n := 0
    yardages := (Ballistics_alloc E h).yardages
    writes := [] }

/-- The loop body of `Ballistics_solve` with the values computed before the
loop (`hwind`, `cwind`, `gx`, `gy`) filled in. -/
def Ballistics_solve.pass (E : Env F) (a : SolveArgs F) : Loop F → Option (Loop F) :=
  Ballistics_solve.body E a
    (E.headwind a.wind_speed a.wind_angle)
    (E.crosswind a.wind_speed a.wind_angle)
    (E.GRAVITY * E.sin (E.deg_to_rad (a.shooting_angle + a.zero_angle)))
    (E.GRAVITY * E.cos (E.deg_to_rad (a.shooting_angle + a.zero_angle)))

/-- The table and return value a solver hands back when its loop has ended in
state `s`. -/
def finish (s : Loop F) : Ballistics F × Int :=
  ({ yardages := s.yardages, max_yardage := s.n }, s.n)

/-- The function `Ballistics_solve`: the table stored through the output pointer and the
returned count. -/
def Ballistics_solve (E : Env F) (h : Heap F) (fuel : Nat) (a : SolveArgs F) :
    Outcome (Ballistics F × Int) :=
  match forLoop (Ballistics_solve.pass E a) (exitTest E) fuel (Ballistics_solve.init E h a) with
  | Outcome.done s => Outcome.done (finish s)
  | Outcome.fault => Outcome.fault
  | Outcome.timeout => Outcome.timeout

/-- The store of a sample by `Ballistics_solve_modified_vertDeflect`. -/
def Ballistics_solve_modified_vertDeflect.record (E : Env F) (a : DeflectArgs F)
    (cwind currentGs windDeflectionOffsetMOA windDeflectionOffsetRad : F) (s : Loop F) :
    Option (Loop F) :=
  match s.yardages[s.n]? with
  | none => none
  | some p =>
    let seconds := s.t + s.dt
    let spindrift_inches := calculateSpinDriftOffsetIn E currentGs seconds
    let windage_inches := E.windage cwind a.vi s.x (s.t + s.dt)
    let corrected_windage := windage_inches + spindrift_inches
    some { s with
      yardages := s.yardages.set s.n
        { p with
          range_yards := s.x / 3
          path_inches := s.y * 12 + E.tan windDeflectionOffsetRad * s.x
          moa_correction := -E.rad_to_moa (E.atan (s.y / s.x)) + windDeflectionOffsetMOA
          seconds := seconds
          spindrift_inches := spindrift_inches
          windage_inches := windage_inches
          windage_moa := E.rad_to_moa (E.atan ((windage_inches / 12) / s.x))
          corrected_windage := corrected_windage
          corrected_windage_moa := E.rad_to_moa (E.atan ((corrected_windage / 12) / s.x))
          v_fps := s.v
          vx_fps := s.vx
          vy_fps := s.vy }
      n := s.n + 1
      writes := s.writes ++ [s.n] }

/-- One pass through the loop body of `Ballistics_solve_modified_vertDeflect`,
up to the exit test. -/
def Ballistics_solve_modified_vertDeflect.body (E : Env F) (a : DeflectArgs F)
    (hwind cwind gx gy : F) (s : Loop F) : Option (Loop F) :=
  let s := { s with vx1 := s.vx }
  let s := { s with vy1 := s.vy }
  let s := { s with v := E.pow (s.vx ^ 2 + s.vy ^ 2) 0.5 }
  let s := { s with dt := 0.5 / s.v }
  let s := { s with
    dv := E.retardModified a.drag_function a.drag_coefficient (s.v + hwind) a.formFactor }
  let s := { s with dvx := -(s.vx / s.v) * s.dv }
  let s := { s with dvy := -(s.vy / s.v) * s.dv }
  let s := { s with vx := s.vx + s.dt * s.dvx + s.dt * gx }
  let s := { s with vy := s.vy + s.dt * s.dvy + s.dt * gy }
  let currentGs := calculateGS E a.bulletGrains a.twistDenominator a.caliberInInches
    a.bulletLengthInInches s.v a.temp a.inHg
  let windDeflectionOffsetMOA :=
    calculateVerticalDeflection currentGs a.bulletLengthInInches a.caliberInInches * cwind
  let windDeflectionOffsetRad := windDeflectionOffsetMOA * (E.M_PI / (180.0 * 60.0))
  match (if s.x / 3 ≥ (s.n : F) then
      Ballistics_solve_modified_vertDeflect.record E a cwind currentGs
        windDeflectionOffsetMOA windDeflectionOffsetRad s
    else some s) with
  | none => none
  | some s =>
    some { s with
      x := s.x + s.dt * (s.vx + s.vx1) / 2
      y := s.y + s.dt * (s.vy + s.vy1) / 2 }

/-- The loop body of `Ballistics_solve_modified_vertDeflect` with the values
computed before the loop filled in. -/
def Ballistics_solve_modified_vertDeflect.pass (E : Env F) (a : DeflectArgs F) :
    Loop F → Option (Loop F) :=
  Ballistics_solve_modified_vertDeflect.body E a
    (E.headwind a.wind_speed a.wind_angle)
    (E.crosswind a.wind_speed a.wind_angle)
    (E.GRAVITY * E.sin (E.deg_to_rad (a.shooting_angle + a.zero_angle)))
    (E.GRAVITY * E.cos (E.deg_to_rad (a.shooting_angle + a.zero_angle)))

/-- The function `Ballistics_solve_modified_vertDeflect`: the table stored through the
output pointer and the returned count. The loop is entered in the same state
as that of `Ballistics_solve`. -/
def Ballistics_solve_modified_vertDeflect (E : Env F) (h : Heap F) (fuel : Nat)
    (a : DeflectArgs F) : Outcome (Ballistics F × Int) :=
  match forLoop (Ballistics_solve_modified_vertDeflect.pass E a) (exitTest E) fuel
      (Ballistics_solve.init E h a.toSolveArgs) with
  | Outcome.done s => Outcome.done (finish s)
  | Outcome.fault => Outcome.fault
  | Outcome.timeout => Outcome.timeout

/-! ## Notions used to state and prove the properties -/

/-- The valid rows of a table lie inside its block. -/
def Ballistics.Valid (b : Ballistics F) : Prop :=
  0 ≤ b.max_yardage ∧ b.max_yardage ≤ (b.yardages.length : Int)

/-- A call of one of the two solvers with its arguments. -/
inductive Call (F : Type) where
  | solve (a : SolveArgs F)
  | solve_modified_vertDeflect (a : DeflectArgs F)

/-- The arguments the two solvers have in common. -/
def Call.args : Call F → SolveArgs F
  | Call.solve a => a
  | Call.solve_modified_vertDeflect a => a.toSolveArgs

/-- The loop body of the solver that is called. -/
def Call.pass (E : Env F) : Call F → Loop F → Option (Loop F)
  | Call.solve a => Ballistics_solve.pass E a
  | Call.solve_modified_vertDeflect a => Ballistics_solve_modified_vertDeflect.pass E a

/-- The retardation `dv` the called solver uses at speed `v`. -/
def Call.drag (E : Env F) : Call F → F → F
  | Call.solve a => fun v =>
    E.retard a.drag_function a.drag_coefficient (v + E.headwind a.wind_speed a.wind_angle)
  | Call.solve_modified_vertDeflect a => fun v =>
    E.retardModified a.drag_function a.drag_coefficient
      (v + E.headwind a.wind_speed a.wind_angle) a.formFactor

/-- The result of the call: the table stored through the output pointer and
the returned count. -/
def Call.run (E : Env F) (h : Heap F) (fuel : Nat) : Call F → Outcome (Ballistics F × Int)
  | Call.solve a => Ballistics_solve E h fuel a
  | Call.solve_modified_vertDeflect a => Ballistics_solve_modified_vertDeflect E h fuel a

/-- The gravity component `gx` along the bore. -/
def gravityX (E : Env F) (a : SolveArgs F) : F :=
  E.GRAVITY * E.sin (E.deg_to_rad (a.shooting_angle + a.zero_angle))

/-- The gravity component `gy` across the bore. -/
def gravityY (E : Env F) (a : SolveArgs F) : F :=
  E.GRAVITY * E.cos (E.deg_to_rad (a.shooting_angle + a.zero_angle))

/-- What one pass through a solver loop body does to the motion variables,
`drag` being the retardation as a function of the speed. -/
structure Motion (E : Env F) (drag : F → F) (gx gy : F) (s s' : Loop F) : Prop where
  t_eq : s'.t = s.t
  vx1_eq : s'.vx1 = s.vx
  vy1_eq : s'.vy1 = s.vy
  v_eq : s'.v = E.pow (s.vx ^ 2 + s.vy ^ 2) 0.5
  dt_eq : s'.dt = 0.5 / s'.v
  dv_eq : s'.dv = drag s'.v
  dvx_eq : s'.dvx = -(s.vx / s'.v) * s'.dv
  dvy_eq : s'.dvy = -(s.vy / s'.v) * s'.dv
  vx_eq : s'.vx = s.vx + s'.dt * s'.dvx + s'.dt * gx
  vy_eq : s'.vy = s.vy + s'.dt * s'.dvy + s'.dt * gy
  x_eq : s'.x = s.x + s'.dt * (s'.vx + s'.vx1) / 2
  y_eq : s'.y = s.y + s'.dt * (s'.vy + s'.vy1) / 2

/-- What one pass through a solver loop body does to the time, the counter and
the sample block: either no sample is stored, or row `n` of the block is
replaced by a row `q` holding the current range and time and `n` goes up by
one. `P` says what else holds of the old row `p` and the new row `q`. -/
def Step (P : Loop F → Loop F → Point F → Point F → Prop) (s s' : Loop F) : Prop :=
  s'.t = s.t ∧ s'.dt = 0.5 / s'.v ∧
  ((¬ (s.n : F) ≤ s.x / 3 ∧ s'.n = s.n ∧ s'.yardages = s.yardages ∧ s'.writes = s.writes) ∨
   ((s.n : F) ≤ s.x / 3 ∧ ∃ p q, s.yardages[s.n]? = some p ∧
      s'.yardages = s.yardages.set s.n q ∧ s'.n = s.n + 1 ∧ s'.writes = s.writes ++ [s.n] ∧
      q.range_yards = s.x / 3 ∧ q.seconds = s.t + s'.dt ∧ P s s' p q))

/-- The block has `cap` rows, samples were stored at exactly the indices
`0, 1, ..., n-1` in this order, and `n` does not exceed `cap`. -/
def Filled (cap : Nat) (s : Loop F) : Prop :=
  s.yardages.length = cap ∧ s.writes = List.range s.n ∧ s.n ≤ cap

/-- Every stored row `i` has a range of at least `i`, row 0 has range 0, and
as long as nothing is stored the projectile is at `x = 0`. -/
def RangesReach (s : Loop F) : Prop :=
  (s.n = 0 → s.x = 0) ∧
  ∀ i, i < s.n → ∃ p, s.yardages[i]? = some p ∧ (i : F) ≤ p.range_yards ∧
    (i = 0 → p.range_yards = 0)

/-- Every stored row satisfies `Q`. -/
def RowsSatisfy (Q : Point F → Prop) (s : Loop F) : Prop :=
  s.n ≤ s.yardages.length ∧ ∀ i, i < s.n → ∃ p, s.yardages[i]? = some p ∧ Q p

/-! ## Further notions: stored rows, pass entry states, traced divisions -/

/-- The state in which pass number `k` (counted from 0) through the loop body
is entered, when the loop gets that far. -/
def passStart (body : Loop F → Option (Loop F)) (test : Loop F → Bool) :
    Nat → Loop F → Option (Loop F)
  | 0, s => some s
  | k + 1, s =>
    match body s with
    | none => none
    | some s' => if test s' then none else passStart body test k (advance s')

/-- The crosswind component `cwind` of a call. -/
def crosswindOf (E : Env F) (a : SolveArgs F) : F :=
  E.crosswind a.wind_speed a.wind_angle

/-- The row that a pass of `Ballistics_solve` entered in state `s` and left in
state `s'` stores over the row `p`. -/
def Ballistics_solve.row (E : Env F) (a : SolveArgs F) (s s' : Loop F) (p : Point F) :
    Point F :=
  { p with
    range_yards := s.x / 3
    path_inches := s.y * 12
    moa_correction := -E.rad_to_moa (E.atan (s.y / s.x))
    seconds := s.t + s'.dt
    windage_inches := E.windage (crosswindOf E a) a.vi s.x (s.t + s'.dt)
    windage_moa :=
      E.rad_to_moa (E.atan ((E.windage (crosswindOf E a) a.vi s.x (s.t + s'.dt) / 12) / s.x))
    v_fps := s'.v
    vx_fps := s'.vx
    vy_fps := s'.vy }

/-- The local `currentGs` of `Ballistics_solve_modified_vertDeflect` in a pass
with speed `v`. -/
def currentGs (E : Env F) (a : DeflectArgs F) (v : F) : F :=
  calculateGS E a.bulletGrains a.twistDenominator a.caliberInInches a.bulletLengthInInches
    v a.temp a.inHg

/-- The local `windDeflectionOffsetMOA` in a pass with speed `v`. -/
def windDeflectionOffsetMOA (E : Env F) (a : DeflectArgs F) (v : F) : F :=
  calculateVerticalDeflection (currentGs E a v) a.bulletLengthInInches a.caliberInInches *
    crosswindOf E a.toSolveArgs

/-- The local `windDeflectionOffsetRad` in a pass with speed `v`. -/
def windDeflectionOffsetRad (E : Env F) (a : DeflectArgs F) (v : F) : F :=
  windDeflectionOffsetMOA E a v * (E.M_PI / (180.0 * 60.0))

/-- The row that a pass of `Ballistics_solve_modified_vertDeflect` entered in
state `s` and left in state `s'` stores over the row `p`. -/
def Ballistics_solve_modified_vertDeflect.row (E : Env F) (a : DeflectArgs F)
    (s s' : Loop F) (p : Point F) : Point F :=
  { p with
    range_yards := s.x / 3
    path_inches := s.y * 12 + E.tan (windDeflectionOffsetRad E a s'.v) * s.x
    moa_correction := -E.rad_to_moa (E.atan (s.y / s.x)) + windDeflectionOffsetMOA E a s'.v
    seconds := s.t + s'.dt
    spindrift_inches := calculateSpinDriftOffsetIn E (currentGs E a s'.v) (s.t + s'.dt)
    windage_inches := E.windage (crosswindOf E a.toSolveArgs) a.vi s.x (s.t + s'.dt)
    windage_moa := E.rad_to_moa (E.atan
      ((E.windage (crosswindOf E a.toSolveArgs) a.vi s.x (s.t + s'.dt) / 12) / s.x))
    corrected_windage :=
      E.windage (crosswindOf E a.toSolveArgs) a.vi s.x (s.t + s'.dt) +
        calculateSpinDriftOffsetIn E (currentGs E a s'.v) (s.t + s'.dt)
    corrected_windage_moa := E.rad_to_moa (E.atan
      (((E.windage (crosswindOf E a.toSolveArgs) a.vi s.x (s.t + s'.dt) +
        calculateSpinDriftOffsetIn E (currentGs E a s'.v) (s.t + s'.dt)) / 12) / s.x))
    v_fps := s'.v
    vx_fps := s'.vx
    vy_fps := s'.vy }

/-- The rows `p` and `q` agree in range, path, elevation MOA, time, windage,
windage MOA and the three velocity fields. -/
def SameRow (p q : Point F) : Prop :=
  p.range_yards = q.range_yards ∧ p.path_inches = q.path_inches ∧
  p.moa_correction = q.moa_correction ∧ p.seconds = q.seconds ∧
  p.windage_inches = q.windage_inches ∧ p.windage_moa = q.windage_moa ∧
  p.v_fps = q.v_fps ∧ p.vx_fps = q.vx_fps ∧ p.vy_fps = q.vy_fps

/-- The solver states `s` and `s'` hold the same values in all variables and
their sample blocks have the same size and agree row by row in the sense of
`SameRow`. -/
def Shadow (s s' : Loop F) : Prop :=
  s' = { s with yardages := s'.yardages } ∧ s.yardages.length = s'.yardages.length ∧
  ∀ (i : Nat) (p q : Point F),
    s.yardages[i]? = some p → s'.yardages[i]? = some q → SameRow p q

/-- The quantity by which a division of the solvers divides: the speed `v`,
the downrange position `x`, the caliber, the divisor `t² d³ l (1 + l²)` of the
Miller formula, the pressure term `(59+460)*inHg`, or a numeric constant. -/
inductive Divisor where
  | speed
  | downrange
  | caliber
  | miller
  | pressure
  | constant
  deriving DecidableEq

/-- A value together with the divisors of the divisions made on the way to it,
in program order. -/
def Traced (F : Type) (α : Type) : Type :=
  α × List (Divisor × F)

instance : Monad (Traced F) where
  pure a := (a, [])
  bind m f := ((f m.1).1, m.2 ++ (f m.1).2)

/-- The division `a / b`, which notes its divisor `b`. -/
def tdiv (site : Divisor) (a b : F) : Traced F F :=
  (a / b, [(site, b)])

/-- The function `calculateGS` with its divisions traced. -/
def calculateGS.traced (E : Env F)
    (bulletGrains twistDenominator caliber lengthOfBullet velocity temp inHg : F) :
    Traced F F := do
  let m := bulletGrains
  let t ← tdiv Divisor.caliber twistDenominator caliber
  let d := caliber
  let l ← tdiv Divisor.caliber lengthOfBullet caliber
  let uncorrectedGS ← tdiv Divisor.miller (30 * m) (t ^ 2 * d ^ 3 * (l * (1 + l ^ 2)))
  let veloCorrection ← tdiv Divisor.constant velocity 2800
  let veloCorrection := E.cbrt veloCorrection
  let tempCorrection ← tdiv Divisor.pressure ((temp + 460) * 29.92) ((59 + 460) * inHg)
  pure (uncorrectedGS * veloCorrection * tempCorrection)

/-- The function `calculateVerticalDeflection` with its division traced. -/
def calculateVerticalDeflection.traced (gs length caliber : F) : Traced F F := do
  let ratio ← tdiv Divisor.caliber length caliber
  pure (0.01 * gs - 0.0024 * ratio + 0.032)

/-- The state of `Ballistics_solve` on entry to its loop, with the division
`-sight_height/12` traced. -/
def Ballistics_solve.initTraced (E : Env F) (h : Heap F) (a : SolveArgs F) :
    Traced F (Loop F) := do
  let y ← tdiv Divisor.constant (-a.sight_height) 12
  pure
    { t := 0, dt := 0, v := 0
      vx := a.vi * E.cos (E.deg_to_rad a.zero_angle)
      vx1 := 0
      vy := a.vi * E.sin (E.deg_to_rad a.zero_angle)
      vy1 := 0
      dv := 0, dvx := 0, dvy := 0
      x := 0
      y := y
      n := 0
      yardages := (Ballistics_alloc E h).yardages
      writes := [] }

/-- The store of a sample by `Ballistics_solve` with its divisions traced. -/
def Ballistics_solve.recordTraced (E : Env F) (a : SolveArgs F) (cwind : F) (s : Loop F) :
    Traced F (Option (Loop F)) :=
  match s.yardages[s.n]? with
  | none => pure none
  | some p => do
    let range_yards ← tdiv Divisor.constant s.x 3
    let slope ← tdiv Divisor.downrange s.y s.x
    let windage_inches := E.windage cwind a.vi s.x (s.t + s.dt)
    let windage_feet ← tdiv Divisor.constant windage_inches 12
    let windage_slope ← tdiv Divisor.downrange windage_feet s.x
    pure (some { s with
      yardages := s.yardages.set s.n
        { p with
          range_yards := range_yards
          path_inches := s.y * 12
          moa_correction := -E.rad_to_moa (E.atan slope)
          seconds := s.t + s.dt
          windage_inches := windage_inches
          windage_moa := E.rad_to_moa (E.atan windage_slope)
          v_fps := s.v
          vx_fps := s.vx
          vy_fps := s.vy }
      n := s.n + 1
      writes := s.writes ++ [s.n] })

/-- One pass through the loop body of `Ballistics_solve` with its divisions
traced. -/
def Ballistics_solve.bodyTraced (E : Env F) (a : SolveArgs F) (hwind cwind gx gy : F)
    (s : Loop F) : Traced F (Option (Loop F)) := do
  let s := { s with vx1 := s.vx }
  let s := { s with vy1 := s.vy }
  let s := { s with v := E.pow (s.vx ^ 2 + s.vy ^ 2) 0.5 }
  let dt ← tdiv Divisor.speed 0.5 s.v
  let s := { s with dt := dt }
  let s := { s with dv := E.retard a.drag_function a.drag_coefficient (s.v + hwind) }
  let cosine ← tdiv Divisor.speed s.vx s.v
  let s := { s with dvx := -cosine * s.dv }
  let sine ← tdiv Divisor.speed s.vy s.v
  let s := { s with dvy := -sine * s.dv }
  let s := { s with vx := s.vx + s.dt * s.dvx + s.dt * gx }
  let s := { s with vy := s.vy + s.dt * s.dvy + s.dt * gy }
  let yards ← tdiv Divisor.constant s.x 3
  let stored ← if yards ≥ (s.n : F) then Ballistics_solve.recordTraced E a cwind s
    else pure (some s)
  match stored with
  | none => pure none
  | some s => do
    let dx ← tdiv Divisor.constant (s.dt * (s.vx + s.vx1)) 2
    let dy ← tdiv Divisor.constant (s.dt * (s.vy + s.vy1)) 2
    pure (some { s with x := s.x + dx, y := s.y + dy })

/-- The traced loop body of `Ballistics_solve` with the values computed before
the loop filled in. -/
def Ballistics_solve.passTraced (E : Env F) (a : SolveArgs F) :
    Loop F → Traced F (Option (Loop F)) :=
  Ballistics_solve.bodyTraced E a
    (E.headwind a.wind_speed a.wind_angle)
    (E.crosswind a.wind_speed a.wind_angle)
    (E.GRAVITY * E.sin (E.deg_to_rad (a.shooting_angle + a.zero_angle)))
    (E.GRAVITY * E.cos (E.deg_to_rad (a.shooting_angle + a.zero_angle)))

/-- The store of a sample by `Ballistics_solve_modified_vertDeflect` with its
divisions traced. -/
def Ballistics_solve_modified_vertDeflect.recordTraced (E : Env F) (a : DeflectArgs F)
    (cwind currentGs windDeflectionOffsetMOA windDeflectionOffsetRad : F) (s : Loop F) :
    Traced F (Option (Loop F)) :=
  match s.yardages[s.n]? with
  | none => pure none
  | some p => do
    let range_yards ← tdiv Divisor.constant s.x 3
    let slope ← tdiv Divisor.downrange s.y s.x
    let seconds := s.t + s.dt
    let spindrift_inches := calculateSpinDriftOffsetIn E currentGs seconds
    let windage_inches := E.windage cwind a.vi s.x (s.t + s.dt)
    let windage_feet ← tdiv Divisor.constant windage_inches 12
    let windage_slope ← tdiv Divisor.downrange windage_feet s.x
    let corrected_windage := windage_inches + spindrift_inches
    let corrected_feet ← tdiv Divisor.constant corrected_windage 12
    let corrected_slope ← tdiv Divisor.downrange corrected_feet s.x
    pure (some { s with
      yardages := s.yardages.set s.n
        { p with
          range_yards := range_yards
          path_inches := s.y * 12 + E.tan windDeflectionOffsetRad * s.x
          moa_correction := -E.rad_to_moa (E.atan slope) + windDeflectionOffsetMOA
          seconds := seconds
          spindrift_inches := spindrift_inches
          windage_inches := windage_inches
          windage_moa := E.rad_to_moa (E.atan windage_slope)
          corrected_windage := corrected_windage
          corrected_windage_moa := E.rad_to_moa (E.atan corrected_slope)
          v_fps := s.v
          vx_fps := s.vx
          vy_fps := s.vy }
      n := s.n + 1
      writes := s.writes ++ [s.n] })

/-- One pass through the loop body of `Ballistics_solve_modified_vertDeflect`
with its divisions traced, those of `calculateGS` and
`calculateVerticalDeflection` included. -/
def Ballistics_solve_modified_vertDeflect.bodyTraced (E : Env F) (a : DeflectArgs F)
    (hwind cwind gx gy : F) (s : Loop F) : Traced F (Option (Loop F)) := do
  let s := { s with vx1 := s.vx }
  let s := { s with vy1 := s.vy }
  let s := { s with v := E.pow (s.vx ^ 2 + s.vy ^ 2) 0.5 }
  let dt ← tdiv Divisor.speed 0.5 s.v
  let s := { s with dt := dt }
  let s := { s with
    dv := E.retardModified a.drag_function a.drag_coefficient (s.v + hwind) a.formFactor }
  let cosine ← tdiv Divisor.speed s.vx s.v
  let s := { s with dvx := -cosine * s.dv }
  let sine ← tdiv Divisor.speed s.vy s.v
  let s := { s with dvy := -sine * s.dv }
  let s := { s with vx := s.vx + s.dt * s.dvx + s.dt * gx }
  let s := { s with vy := s.vy + s.dt * s.dvy + s.dt * gy }
  let currentGs ← calculateGS.traced E a.bulletGrains a.twistDenominator a.caliberInInches
    a.bulletLengthInInches s.v a.temp a.inHg
  let deflection ← calculateVerticalDeflection.traced currentGs a.bulletLengthInInches
    a.caliberInInches
  let windDeflectionOffsetMOA := deflection * cwind
  let radPerMOA ← tdiv Divisor.constant E.M_PI (180.0 * 60.0)
  let windDeflectionOffsetRad := windDeflectionOffsetMOA * radPerMOA
  let yards ← tdiv Divisor.constant s.x 3
  let stored ← if yards ≥ (s.n : F) then
      Ballistics_solve_modified_vertDeflect.recordTraced E a cwind currentGs
        windDeflectionOffsetMOA windDeflectionOffsetRad s
    else pure (some s)
  match stored with
  | none => pure none
  | some s => do
    let dx ← tdiv Divisor.constant (s.dt * (s.vx + s.vx1)) 2
    let dy ← tdiv Divisor.constant (s.dt * (s.vy + s.vy1)) 2
    pure (some { s with x := s.x + dx, y := s.y + dy })

/-- The traced loop body of `Ballistics_solve_modified_vertDeflect` with the
values computed before the loop filled in. -/
def Ballistics_solve_modified_vertDeflect.passTraced (E : Env F) (a : DeflectArgs F) :
    Loop F → Traced F (Option (Loop F)) :=
  Ballistics_solve_modified_vertDeflect.bodyTraced E a
    (E.headwind a.wind_speed a.wind_angle)
    (E.crosswind a.wind_speed a.wind_angle)
    (E.GRAVITY * E.sin (E.deg_to_rad (a.shooting_angle + a.zero_angle)))
    (E.GRAVITY * E.cos (E.deg_to_rad (a.shooting_angle + a.zero_angle)))

/-- The traced loop body of the solver that is called. -/
def Call.passTraced (E : Env F) : Call F → Loop F → Traced F (Option (Loop F))
  | Call.solve a => Ballistics_solve.passTraced E a
  | Call.solve_modified_vertDeflect a => Ballistics_solve_modified_vertDeflect.passTraced E a

/-! ## Double arithmetic -/

/-- The integer nearest to `q`; the even one of the two when `q` lies half way
between them. -/
def roundHalfEven (q : ℚ) : ℤ :=
  if q - ⌊q⌋ < 1 / 2 then ⌊q⌋
  else if 1 / 2 < q - ⌊q⌋ then ⌊q⌋ + 1
  else if ⌊q⌋ % 2 = 0 then ⌊q⌋ else ⌊q⌋ + 1

/-- The `double` nearest to `q` (IEEE 754 binary64, round to nearest, ties to
even): 53 significant bits, a binary exponent of at least -1022 (below it the
spacing stays `2^(-1074)`), and no value where the C result is an infinity. -/
def binary64 (q : ℚ) : Option ℚ :=
  if q = 0 then some 0
  else
    let e := max (Int.log 2 |q|) (-1022) - 52
    let r := (roundHalfEven (q / (2 : ℚ) ^ e) : ℚ) * (2 : ℚ) ^ e
    if |r| < (2 : ℚ) ^ (1024 : ℤ) then some r else none

/-- The statement `y = -sight_height/12` of both solvers in `double`
arithmetic. -/
def Ballistics_solve.yBinary64 (sight_height : ℚ) : Option ℚ :=
  binary64 (-sight_height / 12)

/-- The statement `s->path_inches = y*12` of `Ballistics_solve` in `double`
arithmetic. -/
def Ballistics_solve.pathBinary64 (y : ℚ) : Option ℚ :=
  binary64 (y * 12)

/-- The `path_inches` that the first pass of `Ballistics_solve` stores in
sample 0, in `double` arithmetic: `y` is still the value set before the loop. -/
def Ballistics_solve.firstPathBinary64 (sight_height : ℚ) : Option ℚ :=
  (Ballistics_solve.yBinary64 sight_height).bind Ballistics_solve.pathBinary64

/-! ## An environment, a table and shots for the closed examples -/

/-- The value of `M_PI` in `math.h`. -/
def refPi : ℚ := 3.14159265358979323846

/-- Degrees to radians, `deg * M_PI / 180`. -/
def refDegToRad (d : ℚ) : ℚ := d * refPi / 180

/-- A rational cosine: 0 at ±`M_PI/2`, elsewhere the polynomial `1 - r²/2`,
which is 1 at 0. -/
def refCos (r : ℚ) : ℚ := if |r| = refPi / 2 then 0 else 1 - r ^ 2 / 2

/-- A rational sine: ±1 at ±`M_PI/2`, elsewhere the polynomial `r - r³/6`,
which is 0 at 0. -/
def refSin (r : ℚ) : ℚ :=
  if r = refPi / 2 then 1 else if r = -(refPi / 2) then -1 else r - r ^ 3 / 6

/-- An environment over the rationals with `cap` rows per table. The helpers
follow the usual formulas (wind components from the wind angle, lag-time
windage, degrees to radians), gravity is 32.194 ft/s² downwards and the
retardation is quadratic in the speed. The libm functions are replaced by
rational functions that agree with them where the examples evaluate them: at
the angles 0 and ±90 degrees, at the square root of a square, and at `cbrt 1`,
`pow 0 y` and `pow 1 y`. -/
def refEnv (cap : Nat) : Env ℚ :=
  { BALLISTICS_COMPUTATION_MAX_YARDS := cap
    GRAVITY := -32.194
    M_PI := refPi
    pow := fun x y => if y = 0.5 then Rat.sqrt x else (2 - y) * x + (y - 1) * x ^ 2
    cbrt := fun x => 1 + (x - 1) / 3
    cos := refCos
    sin := refSin
    tan := fun r => r + r ^ 3 / 3
    atan := fun r => r - r ^ 3 / 3
    deg_to_rad := refDegToRad
    rad_to_moa := fun r => r * 180 / refPi * 60
    headwind := fun wind_speed wind_angle => refCos (refDegToRad wind_angle) * wind_speed
    crosswind := fun wind_speed wind_angle => refSin (refDegToRad wind_angle) * wind_speed
    windage := fun wind_speed vi x t => wind_speed * 17.60 * (t - x / vi)
    retard := fun _ drag_coefficient v => v ^ 2 / (10000 * drag_coefficient)
    retardModified := fun _ drag_coefficient v formFactor =>
      v ^ 2 / (10000 * (drag_coefficient * formFactor)) }

/-- A block of two rows of which the first is valid; the twelve fields of the
valid row are pairwise different. -/
def demoTable : Ballistics ℚ :=
  { yardages :=
      [ { range_yards := 1, path_inches := 2, moa_correction := 3, seconds := 4
          windage_inches := 5, spindrift_inches := 6, corrected_windage := 7
          windage_moa := 8, corrected_windage_moa := 9
          v_fps := 10, vx_fps := 11, vy_fps := 12 },
        { range_yards := 21, path_inches := 22, moa_correction := 23, seconds := 24
          windage_inches := 25, spindrift_inches := 26, corrected_windage := 27
          windage_moa := 28, corrected_windage_moa := 29
          v_fps := 30, vx_fps := 31, vy_fps := 32 } ]
    max_yardage := 1 }

/-- Memory that holds 99 in every field of every row and -1 as row count. -/
def junkHeap : Heap ℚ :=
  { points := fun _ =>
      { range_yards := 99, path_inches := 99, moa_correction := 99, seconds := 99
        windage_inches := 99, spindrift_inches := 99, corrected_windage := 99
        windage_moa := 99, corrected_windage_moa := 99
        v_fps := 99, vx_fps := 99, vy_fps := 99 }
    count := -1 }

/-- A projectile leaving the bore at 1 ft/s, the bore pointing `angle` degrees
above the horizontal, in still air. -/
def slowShot (angle : ℚ) : SolveArgs ℚ :=
  { drag_function := DragFunction.G1
    drag_coefficient := 0.5
    vi := 1
    sight_height := 1.5
    shooting_angle := angle
    zero_angle := 0
    wind_speed := 0
    wind_angle := 0 }

/-- The bullet of `example.c` for `slowShot`. -/
def slowBullet (angle : ℚ) : DeflectArgs ℚ :=
  { slowShot angle with
    caliberInInches := 0.308
    bulletLengthInInches := 1.215
    temp := 59
    inHg := 29.92
    twistDenominator := 12
    velocity := 1
    bulletGrains := 168
    formFactor := 1.0 }

/-- The `slowBullet` sent straight down through a wind of 10 mi/h from the
right (wind angle 90 degrees). -/
def windyBullet : DeflectArgs ℚ :=
  { slowBullet (-90) with
    wind_speed := 10
    wind_angle := 90 }

/-- A projectile leaving the bore at 4.1 ft/s straight up in still air, with a
drag coefficient for which `refEnv` retards it by 1.426 ft/s² at that speed:
in the first time step, 5/41 s, drag and gravity take exactly 4.1 ft/s off its
speed. -/
def stallShot : SolveArgs ℚ :=
  { drag_function := DragFunction.G1
    drag_coefficient := 1681 / 1426000
    vi := 4.1
    sight_height := 1.5
    shooting_angle := 90
    zero_angle := 0
    wind_speed := 0
    wind_angle := 0 }

/-! # Properties

## Accessors -/

/-- C1: at an index at or beyond the valid count each of the twelve accessors
returns exactly 0, whatever the block holds there. -/
theorem C1_accessor_beyond_count_is_zero (b : Ballistics F) (i : Int)
    (h : b.max_yardage ≤ i) :
    Ballistics_get_range b i = some 0 ∧ Ballistics_get_path b i = some 0 ∧
    Ballistics_get_moa b i = some 0 ∧ Ballistics_get_time b i = some 0 ∧
    Ballistics_get_windage b i = some 0 ∧ Ballistics_get_spindrift b i = some 0 ∧
    Ballistics_get_windage_moa b i = some 0 ∧
    Ballistics_get_corrected_windage b i = some 0 ∧
    Ballistics_get_corrected_windage_moa b i = some 0 ∧
    Ballistics_get_v_fps b i = some 0 ∧ Ballistics_get_vx_fps b i = some 0 ∧
    Ballistics_get_vy_fps b i = some 0 := by
  have hn : ¬ i < b.max_yardage := not_lt.mpr h
  simp [Ballistics_get_range, Ballistics_get_path, Ballistics_get_moa, Ballistics_get_time,
    Ballistics_get_windage, Ballistics_get_spindrift, Ballistics_get_windage_moa,
    Ballistics_get_corrected_windage, Ballistics_get_corrected_windage_moa,
    Ballistics_get_v_fps, Ballistics_get_vx_fps, Ballistics_get_vy_fps, hn]

/-- The row 1 of `demoTable` is allocated and holds non-zero values, but lies
beyond the valid count: all twelve accessors give 0 there. -/
theorem C1_accessor_beyond_count_is_zero_witness :
    demoTable.max_yardage ≤ 1 ∧
    (Ballistics_get_range demoTable 1 = some 0 ∧ Ballistics_get_path demoTable 1 = some 0 ∧
    Ballistics_get_moa demoTable 1 = some 0 ∧ Ballistics_get_time demoTable 1 = some 0 ∧
    Ballistics_get_windage demoTable 1 = some 0 ∧
    Ballistics_get_spindrift demoTable 1 = some 0 ∧
    Ballistics_get_windage_moa demoTable 1 = some 0 ∧
    Ballistics_get_corrected_windage demoTable 1 = some 0 ∧
    Ballistics_get_corrected_windage_moa demoTable 1 = some 0 ∧
    Ballistics_get_v_fps demoTable 1 = some 0 ∧ Ballistics_get_vx_fps demoTable 1 = some 0 ∧
    Ballistics_get_vy_fps demoTable 1 = some 0) :=
  ⟨by simp [demoTable], C1_accessor_beyond_count_is_zero demoTable 1 (by simp [demoTable])⟩

/-- C2: at an index `i` with `0 ≤ i < N` of a table whose `N` valid rows lie
inside its block, row `i` exists and each accessor returns the field of that
row which its name denotes. -/
theorem C2_accessor_returns_own_field (b : Ballistics F) (i : Int)
    (hb : b.Valid) (h0 : 0 ≤ i) (hN : i < b.max_yardage) :
    ∃ p : Point F, b.yardages[i.toNat]? = some p ∧
      Ballistics_get_range b i = some p.range_yards ∧
      Ballistics_get_path b i = some p.path_inches ∧
      Ballistics_get_moa b i = some p.moa_correction ∧
      Ballistics_get_time b i = some p.seconds ∧
      Ballistics_get_windage b i = some p.windage_inches ∧
      Ballistics_get_spindrift b i = some p.spindrift_inches ∧
      Ballistics_get_windage_moa b i = some p.windage_moa ∧
      Ballistics_get_corrected_windage b i = some p.corrected_windage ∧
      Ballistics_get_corrected_windage_moa b i = some p.corrected_windage_moa ∧
      Ballistics_get_v_fps b i = some p.v_fps ∧
      Ballistics_get_vx_fps b i = some p.vx_fps ∧
      Ballistics_get_vy_fps b i = some p.vy_fps := by
  have hlen : i.toNat < b.yardages.length := by
    have := hb.2
    omega
  refine ⟨b.yardages[i.toNat], List.getElem?_eq_getElem hlen, ?_⟩
  simp [Ballistics_get_range, Ballistics_get_path, Ballistics_get_moa, Ballistics_get_time,
    Ballistics_get_windage, Ballistics_get_spindrift, Ballistics_get_windage_moa,
    Ballistics_get_corrected_windage, Ballistics_get_corrected_windage_moa,
    Ballistics_get_v_fps, Ballistics_get_vx_fps, Ballistics_get_vy_fps, readPoint, hN, h0,
    List.getElem?_eq_getElem hlen]

/-- On the valid row of `demoTable`, whose fields are 1 to 12 in the order of
the `Point` declaration, the accessors return twelve different values. -/
theorem C2_accessor_returns_own_field_witness :
    demoTable.Valid ∧ (0 : Int) ≤ 0 ∧ (0 : Int) < demoTable.max_yardage ∧
    Ballistics_get_range demoTable 0 = some 1 ∧ Ballistics_get_path demoTable 0 = some 2 ∧
    Ballistics_get_moa demoTable 0 = some 3 ∧ Ballistics_get_time demoTable 0 = some 4 ∧
    Ballistics_get_windage demoTable 0 = some 5 ∧
    Ballistics_get_spindrift demoTable 0 = some 6 ∧
    Ballistics_get_corrected_windage demoTable 0 = some 7 ∧
    Ballistics_get_windage_moa demoTable 0 = some 8 ∧
    Ballistics_get_corrected_windage_moa demoTable 0 = some 9 ∧
    Ballistics_get_v_fps demoTable 0 = some 10 ∧ Ballistics_get_vx_fps demoTable 0 = some 11 ∧
    Ballistics_get_vy_fps demoTable 0 = some 12 := by
  have hv : demoTable.Valid := by simp [Ballistics.Valid, demoTable]
  have h1 : (0 : Int) < demoTable.max_yardage := by simp [demoTable]
  obtain ⟨p, hp, h⟩ := C2_accessor_returns_own_field demoTable 0 hv le_rfl h1
  have hp' : p = demoTable.yardages[0] := by
    simpa [demoTable] using hp.symm
  subst hp'
  exact ⟨hv, le_rfl, h1, h.1, h.2.1, h.2.2.1, h.2.2.2.1, h.2.2.2.2.1, h.2.2.2.2.2.1,
    h.2.2.2.2.2.2.2.1, h.2.2.2.2.2.2.1, h.2.2.2.2.2.2.2.2.1, h.2.2.2.2.2.2.2.2.2.1,
    h.2.2.2.2.2.2.2.2.2.2.1, h.2.2.2.2.2.2.2.2.2.2.2⟩

/-! ## The solver loops -/

/-- Loop rule: an invariant `I` of the states in which the body is entered and
`J` of the states in which it is left carries over to the state in which the
loop is left. `G` is a fact supplied for the end of every pass. -/
theorem forLoop_induct {body : Loop F → Option (Loop F)} {test : Loop F → Bool}
    (G I J : Loop F → Prop)
    (hJ : ∀ s s', I s → body s = some s' → G s' → J s')
    (hI : ∀ s', J s' → test s' = false → I (advance s')) :
    ∀ (fuel : Nat) (s r : Loop F), I s →
      (∀ k s', passEnd body test k s = some s' → G s') →
      forLoop body test fuel s = Outcome.done r → J r ∧ test r = true
  | 0, s, r, _, _, h => by simp [forLoop] at h
  | fuel + 1, s, r, hs, hG, h => by
    cases hb : body s with
    | none => simp [forLoop, hb] at h
    | some s' =>
      have hJ' := hJ s s' hs hb (hG 0 s' (by simp [passEnd, hb]))
      cases ht : test s' with
      | true =>
        simp [forLoop, hb, ht] at h
        subst h
        exact ⟨hJ', ht⟩
      | false =>
        simp only [forLoop, hb, ht] at h
        exact forLoop_induct G I J hJ hI fuel (advance s') r (hI s' hJ' ht)
          (fun k s2 hk => hG (k + 1) s2 (by simp [passEnd, hb, ht, hk])) h

/-- Loop rule for memory safety: when the body cannot fault in a state
satisfying the invariant, the loop does not fault. -/
theorem forLoop_no_fault {body : Loop F → Option (Loop F)} {test : Loop F → Bool}
    (I J : Loop F → Prop)
    (hsafe : ∀ s, I s → body s ≠ none)
    (hJ : ∀ s s', I s → body s = some s' → J s')
    (hI : ∀ s', J s' → test s' = false → I (advance s')) :
    ∀ (fuel : Nat) (s : Loop F), I s → forLoop body test fuel s ≠ Outcome.fault
  | 0, s, _ => by simp [forLoop]
  | fuel + 1, s, hs => by
    cases hb : body s with
    | none => exact absurd hb (hsafe s hs)
    | some s' =>
      cases ht : test s' with
      | true => simp [forLoop, hb, ht]
      | false =>
        simp only [forLoop, hb, ht]
        exact forLoop_no_fault I J hsafe hJ hI fuel (advance s') (hI s' (hJ s s' hs hb) ht)

/-- The body of `Ballistics_solve` is a `Step`; it leaves `spindrift_inches`,
`corrected_windage` and `corrected_windage_moa` of the row as they were. -/
theorem solve_pass_step (E : Env F) (a : SolveArgs F) (s s' : Loop F)
    (h : Ballistics_solve.pass E a s = some s') :
    Step (fun _ _ p q => q.spindrift_inches = p.spindrift_inches ∧
      q.corrected_windage = p.corrected_windage ∧
      q.corrected_windage_moa = p.corrected_windage_moa) s s' := by
  unfold Ballistics_solve.pass Ballistics_solve.body at h
  simp only at h
  split at h
  · exact absurd h (by simp)
  · rename_i r hr
    split at hr
    · rename_i hc
      unfold Ballistics_solve.record at hr
      simp only at hr
      split at hr
      · exact absurd hr (by simp)
      · rename_i p hp
        simp only [Option.some.injEq] at hr h
        subst hr
        subst h
        exact ⟨rfl, rfl, Or.inr ⟨hc, p, _, hp, rfl, rfl, rfl, rfl, rfl, rfl, rfl, rfl⟩⟩
    · rename_i hc
      simp only [Option.some.injEq] at hr h
      subst hr
      subst h
      exact ⟨rfl, rfl, Or.inl ⟨hc, rfl, rfl, rfl⟩⟩

/-- The body of `Ballistics_solve` faults only on a store outside the block. -/
theorem solve_pass_safe (E : Env F) (a : SolveArgs F) (s : Loop F)
    (hn : s.n < s.yardages.length) : Ballistics_solve.pass E a s ≠ none := by
  unfold Ballistics_solve.pass Ballistics_solve.body Ballistics_solve.record
  simp only [List.getElem?_eq_getElem hn]
  split_ifs <;> simp

/-- The body of `Ballistics_solve_modified_vertDeflect` is a `Step`; the row it
stores has `corrected_windage = windage_inches + spindrift_inches`. -/
theorem vertDeflect_pass_step (E : Env F) (a : DeflectArgs F)
    (s s' : Loop F) (h : Ballistics_solve_modified_vertDeflect.pass E a s = some s') :
    Step (fun _ _ _ q => q.corrected_windage = q.windage_inches + q.spindrift_inches) s s' := by
  unfold Ballistics_solve_modified_vertDeflect.pass
    Ballistics_solve_modified_vertDeflect.body at h
  simp only at h
  split at h
  · exact absurd h (by simp)
  · rename_i r hr
    split at hr
    · rename_i hc
      unfold Ballistics_solve_modified_vertDeflect.record at hr
      simp only at hr
      split at hr
      · exact absurd hr (by simp)
      · rename_i p hp
        simp only [Option.some.injEq] at hr h
        subst hr
        subst h
        exact ⟨rfl, rfl, Or.inr ⟨hc, p, _, hp, rfl, rfl, rfl, rfl, rfl, rfl⟩⟩
    · rename_i hc
      simp only [Option.some.injEq] at hr h
      subst hr
      subst h
      exact ⟨rfl, rfl, Or.inl ⟨hc, rfl, rfl, rfl⟩⟩

/-- The body of `Ballistics_solve_modified_vertDeflect` faults only on a store
outside the block. -/
theorem vertDeflect_pass_safe (E : Env F) (a : DeflectArgs F)
    (s : Loop F) (hn : s.n < s.yardages.length) :
    Ballistics_solve_modified_vertDeflect.pass E a s ≠ none := by
  unfold Ballistics_solve_modified_vertDeflect.pass
    Ballistics_solve_modified_vertDeflect.body Ballistics_solve_modified_vertDeflect.record
  simp only [List.getElem?_eq_getElem hn]
  split_ifs <;> simp

/-- A row stored below index `n` is not touched by a store at index `n`, and
the store at index `n` puts its row there. -/
theorem getElem?_set_stored {α : Type} {ys : List α} {n : Nat} {p q : α}
    (hp : ys[n]? = some p) :
    (ys.set n q)[n]? = some q ∧ ∀ i, i < n → (ys.set n q)[i]? = ys[i]? := by
  obtain ⟨hn, _⟩ := List.getElem?_eq_some.mp hp
  refine ⟨List.getElem?_set_self hn, fun i hi => ?_⟩
  exact List.getElem?_set_ne (by omega)

theorem Step.filled {P : Loop F → Loop F → Point F → Point F → Prop} {cap : Nat}
    {s s' : Loop F} (h : Step P s s') (hf : Filled cap s) : Filled cap s' := by
  obtain ⟨hlen, hw, hn⟩ := hf
  rcases h.2.2 with ⟨_, h1, h2, h3⟩ | ⟨_, p, q, hp, h1, h2, h3, _⟩
  · exact ⟨by rw [h2, hlen], by rw [h3, h1, hw], by rw [h1]; exact hn⟩
  · obtain ⟨hlt, _⟩ := List.getElem?_eq_some.mp hp
    refine ⟨by rw [h1, List.length_set, hlen], ?_, by rw [h2]; omega⟩
    rw [h3, h2, hw, List.range_succ]

theorem Step.rangesReach {P : Loop F → Loop F → Point F → Point F → Prop}
    {s s' : Loop F} (h : Step P s s') (hr : RangesReach s) : RangesReach s' := by
  obtain ⟨hx, hrows⟩ := hr
  rcases h.2.2 with ⟨hc, h1, h2, _⟩ | ⟨hc, p, q, hp, h1, h2, _, hq, _⟩
  · refine ⟨fun h0 => ?_, fun i hi => ?_⟩
    · rw [h1] at h0
      exact absurd (by simp [h0, hx h0]) hc
    · rw [h2]
      exact hrows i (by omega)
  · obtain ⟨hself, hbelow⟩ := getElem?_set_stored (q := q) hp
    refine ⟨fun h0 => by omega, fun i hi => ?_⟩
    rw [h1]
    rcases Nat.lt_or_ge i s.n with hlt | hge
    · rw [hbelow i hlt]
      exact hrows i hlt
    · have hi' : i = s.n := by omega
      subst hi'
      refine ⟨q, hself, by rw [hq]; exact hc, fun h0 => ?_⟩
      rw [hq, hx h0]
      simp

theorem Step.rowsSatisfy {P : Loop F → Loop F → Point F → Point F → Prop}
    {Q : Point F → Prop} (hPQ : ∀ s s' p q, P s s' p q → Q q)
    {s s' : Loop F} (h : Step P s s') (hr : RowsSatisfy Q s) : RowsSatisfy Q s' := by
  obtain ⟨hn, hrows⟩ := hr
  rcases h.2.2 with ⟨_, h1, h2, _⟩ | ⟨_, p, q, hp, h1, h2, _, _, _, hP⟩
  · rw [RowsSatisfy, h1, h2]
    exact ⟨hn, hrows⟩
  · obtain ⟨hself, hbelow⟩ := getElem?_set_stored (q := q) hp
    obtain ⟨hlt, _⟩ := List.getElem?_eq_some.mp hp
    rw [RowsSatisfy, h1, h2, List.length_set]
    refine ⟨hlt, fun i hi => ?_⟩
    rcases Nat.lt_or_ge i s.n with hlt' | hge
    · rw [hbelow i hlt']
      exact hrows i hlt'
    · have hi' : i = s.n := by omega
      subst hi'
      exact ⟨q, hself, hPQ _ _ _ _ hP⟩

/-- The motion variables after a pass of `Ballistics_solve`. -/
theorem solve_pass_motion (E : Env F) (a : SolveArgs F) (s s' : Loop F)
    (h : Ballistics_solve.pass E a s = some s') :
    Motion E (Call.drag E (Call.solve a)) (gravityX E a) (gravityY E a) s s' := by
  unfold Ballistics_solve.pass Ballistics_solve.body at h
  simp only at h
  split at h
  · exact absurd h (by simp)
  · rename_i r hr
    split at hr
    · unfold Ballistics_solve.record at hr
      simp only at hr
      split at hr
      · exact absurd hr (by simp)
      · simp only [Option.some.injEq] at hr h
        subst hr
        subst h
        constructor <;> rfl
    · simp only [Option.some.injEq] at hr h
      subst hr
      subst h
      constructor <;> rfl

/-- The motion variables after a pass of
`Ballistics_solve_modified_vertDeflect`. -/
theorem vertDeflect_pass_motion (E : Env F) (a : DeflectArgs F)
    (s s' : Loop F) (h : Ballistics_solve_modified_vertDeflect.pass E a s = some s') :
    Motion E (Call.drag E (Call.solve_modified_vertDeflect a))
      (gravityX E a.toSolveArgs) (gravityY E a.toSolveArgs) s s' := by
  unfold Ballistics_solve_modified_vertDeflect.pass
    Ballistics_solve_modified_vertDeflect.body at h
  simp only at h
  split at h
  · exact absurd h (by simp)
  · rename_i r hr
    split at hr
    · unfold Ballistics_solve_modified_vertDeflect.record at hr
      simp only at hr
      split at hr
      · exact absurd hr (by simp)
      · simp only [Option.some.injEq] at hr h
        subst hr
        subst h
        constructor <;> rfl
    · simp only [Option.some.injEq] at hr h
      subst hr
      subst h
      constructor <;> rfl

/-- Both solvers run the same loop on the same initial state, each with its
own body. -/
theorem Call.run_eq (E : Env F) (h : Heap F) (fuel : Nat) (c : Call F) :
    c.run E h fuel =
      match forLoop (c.pass E) (exitTest E) fuel (Ballistics_solve.init E h c.args) with
      | Outcome.done s => Outcome.done (finish s)
      | Outcome.fault => Outcome.fault
      | Outcome.timeout => Outcome.timeout := by
  cases c <;> rfl

theorem Call.pass_step (E : Env F) (c : Call F) (s s' : Loop F)
    (h : c.pass E s = some s') : Step (fun _ _ _ _ => True) s s' := by
  cases c with
  | solve a =>
    obtain ⟨h1, h2, h3⟩ := solve_pass_step E a s s' h
    refine ⟨h1, h2, h3.imp id ?_⟩
    rintro ⟨hc, p, q, hp, hq⟩
    exact ⟨hc, p, q, hp, hq.1, hq.2.1, hq.2.2.1, hq.2.2.2.1, hq.2.2.2.2.1, trivial⟩
  | solve_modified_vertDeflect a =>
    obtain ⟨h1, h2, h3⟩ := vertDeflect_pass_step E a s s' h
    refine ⟨h1, h2, h3.imp id ?_⟩
    rintro ⟨hc, p, q, hp, hq⟩
    exact ⟨hc, p, q, hp, hq.1, hq.2.1, hq.2.2.1, hq.2.2.2.1, hq.2.2.2.2.1, trivial⟩

theorem Call.pass_safe (E : Env F) (c : Call F) (s : Loop F)
    (hn : s.n < s.yardages.length) : c.pass E s ≠ none := by
  cases c with
  | solve a => exact solve_pass_safe E a s hn
  | solve_modified_vertDeflect a =>
    exact vertDeflect_pass_safe E a s hn

theorem Call.pass_motion (E : Env F) (c : Call F) (s s' : Loop F)
    (h : c.pass E s = some s') :
    Motion E (c.drag E) (gravityX E c.args) (gravityY E c.args) s s' := by
  cases c with
  | solve a => exact solve_pass_motion E a s s' h
  | solve_modified_vertDeflect a =>
    exact vertDeflect_pass_motion E a s s' h

/-- A run that ends hands back the final block with the final counter as row
count and as return value. -/
theorem Call.run_done (E : Env F) (h : Heap F) (fuel : Nat) (c : Call F)
    (b : Ballistics F) (N : Int) (hrun : c.run E h fuel = Outcome.done (b, N)) :
    ∃ s, forLoop (c.pass E) (exitTest E) fuel (Ballistics_solve.init E h c.args) =
        Outcome.done s ∧ b.yardages = s.yardages ∧ b.max_yardage = s.n ∧ N = s.n := by
  rw [Call.run_eq] at hrun
  split at hrun
  · rename_i s hs
    simp only [finish, Outcome.done.injEq, Prod.mk.injEq] at hrun
    obtain ⟨hb, hN⟩ := hrun
    subst hb
    exact ⟨s, hs, rfl, rfl, hN.symm⟩
  · exact absurd hrun (by simp)
  · exact absurd hrun (by simp)

theorem init_filled (E : Env F) (h : Heap F) (a : SolveArgs F) :
    Filled E.BALLISTICS_COMPUTATION_MAX_YARDS (Ballistics_solve.init E h a) := by
  simp [Filled, Ballistics_solve.init, Ballistics_alloc]

theorem exitTest_false_lt (E : Env F) (s : Loop F) (h : exitTest E s = false) :
    s.n < E.BALLISTICS_COMPUTATION_MAX_YARDS ∧ ¬ |s.vy| > |3 * s.vx| := by
  simp only [exitTest, Bool.or_eq_false_iff, decide_eq_false_iff_not] at h
  exact ⟨by omega, h.1⟩

/-- When the loop of either solver ends, samples have been stored at exactly
the indices below the counter, in increasing order, inside the block. -/
theorem Call.loop_filled (E : Env F) (h : Heap F) (c : Call F) (fuel : Nat) (s : Loop F)
    (hs : forLoop (c.pass E) (exitTest E) fuel (Ballistics_solve.init E h c.args) =
      Outcome.done s) :
    Filled E.BALLISTICS_COMPUTATION_MAX_YARDS s := by
  refine (forLoop_induct (fun _ => True)
    (fun s => Filled E.BALLISTICS_COMPUTATION_MAX_YARDS s)
    (fun s => Filled E.BALLISTICS_COMPUTATION_MAX_YARDS s) ?_ ?_ fuel _ s
    (init_filled E h c.args) (fun _ _ _ => trivial) hs).1
  · intro s s' hI hb _
    exact (Call.pass_step E c s s' hb).filled hI
  · intro s' hJ _
    exact hJ

/-- With room for at least one row, the loop of either solver never stores a
sample outside the block. -/
theorem Call.loop_no_fault (E : Env F) (h : Heap F) (c : Call F)
    (hcap : 1 ≤ E.BALLISTICS_COMPUTATION_MAX_YARDS) (fuel : Nat) :
    forLoop (c.pass E) (exitTest E) fuel (Ballistics_solve.init E h c.args) ≠
      Outcome.fault := by
  refine forLoop_no_fault
    (fun s => Filled E.BALLISTICS_COMPUTATION_MAX_YARDS s ∧
      s.n < E.BALLISTICS_COMPUTATION_MAX_YARDS)
    (fun s => Filled E.BALLISTICS_COMPUTATION_MAX_YARDS s) ?_ ?_ ?_ fuel _ ?_
  · intro s hI
    exact Call.pass_safe E c s (by rw [hI.1.1]; exact hI.2)
  · intro s s' hI hb
    exact (Call.pass_step E c s s' hb).filled hI.1
  · intro s' hJ ht
    exact ⟨hJ, (exitTest_false_lt E s' ht).1⟩
  · exact ⟨init_filled E h c.args, by simpa [Ballistics_solve.init] using hcap⟩

/-- When a loop whose body is a `Step` ends, every stored row satisfies what
the `Step` guarantees of a stored row. -/
theorem loop_rowsSatisfy {body : Loop F → Option (Loop F)} {test : Loop F → Bool}
    {P : Loop F → Loop F → Point F → Point F → Prop} {Q : Point F → Prop}
    (hstep : ∀ s s', body s = some s' → Step P s s')
    (hPQ : ∀ s s' p q, P s s' p q → Q q)
    (fuel : Nat) (s0 s : Loop F) (h0 : RowsSatisfy Q s0)
    (hs : forLoop body test fuel s0 = Outcome.done s) : RowsSatisfy Q s := by
  refine (forLoop_induct (fun _ => True) (RowsSatisfy Q) (RowsSatisfy Q) ?_ ?_ fuel s0 s h0
    (fun _ _ _ => trivial) hs).1
  · intro s s' hI hb _
    exact (hstep s s' hb).rowsSatisfy hPQ hI
  · intro s' hJ _
    exact hJ

theorem init_rowsSatisfy (E : Env F) (h : Heap F) (a : SolveArgs F) (Q : Point F → Prop) :
    RowsSatisfy Q (Ballistics_solve.init E h a) := by
  refine ⟨by simp [Ballistics_solve.init], fun i hi => ?_⟩
  simp [Ballistics_solve.init] at hi

/-! ## Claims about the solvers -/

/-- C3 (amended): in the table of either solver, the sample at every index `i`
below the returned count has a range of at least `i`, and the sample at index
0 has range 0. -/
theorem C3_range_reaches_index (E : Env F) (h : Heap F) (fuel : Nat) (c : Call F)
    (b : Ballistics F) (N : Int) (hrun : c.run E h fuel = Outcome.done (b, N)) :
    ∀ i : Nat, (i : Int) < N → ∃ p, b.yardages[i]? = some p ∧
      (i : F) ≤ p.range_yards ∧ (i = 0 → p.range_yards = 0) := by
  obtain ⟨s, hs, hb, _, hN⟩ := Call.run_done E h fuel c b N hrun
  have hr : RangesReach s := by
    refine (forLoop_induct (fun _ => True) RangesReach RangesReach ?_ ?_ fuel _ s ?_
      (fun _ _ _ => trivial) hs).1
    · intro s s' hI hb _
      exact (Call.pass_step E c s s' hb).rangesReach hI
    · intro s' hJ _
      exact hJ
    · refine ⟨fun _ => rfl, fun i hi => ?_⟩
      simp [Ballistics_solve.init] at hi
  intro i hi
  rw [hb]
  exact hr.2 i (by omega)

/-- C6: with a capacity of at least one row, neither solver ever stores a
sample outside the block, and when a solver returns, the returned count `N` is
between 0 and the capacity, is the row count stored in the table, and is the
number of samples stored; these were stored at the indices `0, ..., N-1`, all
below the capacity. -/
theorem C6_count_within_capacity (E : Env F) (h : Heap F) (c : Call F)
    (hcap : 1 ≤ E.BALLISTICS_COMPUTATION_MAX_YARDS) :
    (∀ fuel, c.run E h fuel ≠ Outcome.fault) ∧
    ∀ fuel b N, c.run E h fuel = Outcome.done (b, N) →
      0 ≤ N ∧ N ≤ (E.BALLISTICS_COMPUTATION_MAX_YARDS : Int) ∧ b.max_yardage = N ∧
      b.yardages.length = E.BALLISTICS_COMPUTATION_MAX_YARDS ∧
      ∃ s, forLoop (c.pass E) (exitTest E) fuel (Ballistics_solve.init E h c.args) =
          Outcome.done s ∧
        s.writes = List.range s.n ∧ N = (s.writes.length : Int) ∧
        ∀ i ∈ s.writes, i < E.BALLISTICS_COMPUTATION_MAX_YARDS := by
  constructor
  · intro fuel hf
    rw [Call.run_eq] at hf
    have := Call.loop_no_fault E h c hcap fuel
    split at hf
    · exact absurd hf (by simp)
    · rename_i hfault
      exact this hfault
    · exact absurd hf (by simp)
  · intro fuel b N hrun
    obtain ⟨s, hs, hb, hm, hN⟩ := Call.run_done E h fuel c b N hrun
    obtain ⟨hlen, hw, hn⟩ := Call.loop_filled E h c fuel s hs
    refine ⟨by omega, by omega, by omega, by rw [hb, hlen], s, hs, hw, ?_, ?_⟩
    · rw [hw, List.length_range, hN]
    · intro i hi
      rw [hw, List.mem_range] at hi
      omega

/-- C10: in the table of `Ballistics_solve_modified_vertDeflect`, every sample
below the returned count has
`corrected_windage = windage_inches + spindrift_inches`. -/
theorem C10_corrected_windage_is_sum (E : Env F) (h : Heap F) (fuel : Nat)
    (a : DeflectArgs F) (b : Ballistics F) (N : Int)
    (hrun : Ballistics_solve_modified_vertDeflect E h fuel a = Outcome.done (b, N)) :
    ∀ i : Nat, (i : Int) < N → ∃ p, b.yardages[i]? = some p ∧
      p.corrected_windage = p.windage_inches + p.spindrift_inches := by
  obtain ⟨s, hs, hb, _, hN⟩ :=
    Call.run_done E h fuel (Call.solve_modified_vertDeflect a) b N hrun
  have hr := loop_rowsSatisfy
    (Q := fun q => q.corrected_windage = q.windage_inches + q.spindrift_inches)
    (vertDeflect_pass_step E a) (fun _ _ _ _ hP => hP)
    fuel _ s (init_rowsSatisfy E h a.toSolveArgs _) hs
  intro i hi
  rw [hb]
  exact hr.2 i (by omega)

/-! ## The example shots -/

theorem refEnv_sqrt_sq (cap : Nat) (a : ℚ) : (refEnv cap).pow (a ^ 2 + 0 ^ 2) 0.5 = |a| := by
  have h : a ^ 2 + 0 ^ 2 = a * a := by ring
  simp only [refEnv, if_true, h]
  exact Rat.sqrt_eq a

/-- The constants of a `slowShot` straight up or straight down: no wind, no
gravity across the bore, full gravity along it, and a retardation of
`v²/5000`. -/
theorem slowShot_consts (cap : Nat) (θ : ℚ) (hθ : θ = 90 ∨ θ = -90) (c : Call ℚ)
    (hc : c = Call.solve (slowShot θ) ∨ c = Call.solve_modified_vertDeflect (slowBullet θ)) :
    c.args = slowShot θ ∧ (∀ v, c.drag (refEnv cap) v = v ^ 2 / 5000) ∧
    gravityX (refEnv cap) (slowShot θ) = θ / 90 * (-32.194) ∧
    gravityY (refEnv cap) (slowShot θ) = 0 ∧
    (Ballistics_solve.init (refEnv cap) junkHeap (slowShot θ)).vx = 1 ∧
    (Ballistics_solve.init (refEnv cap) junkHeap (slowShot θ)).vy = 0 := by
  refine ⟨?_, ?_, ?_, ?_, ?_, ?_⟩
  · rcases hc with rfl | rfl <;> rfl
  · intro v
    rcases hc with rfl | rfl <;>
      simp [Call.drag, refEnv, slowShot, slowBullet, refCos, refDegToRad] <;> ring
  · rcases hθ with rfl | rfl <;> norm_num [gravityX, refEnv, slowShot, refSin, refDegToRad, refPi]
  · rcases hθ with rfl | rfl <;> norm_num [gravityY, refEnv, slowShot, refCos, refDegToRad, refPi]
  · norm_num [Ballistics_solve.init, refEnv, slowShot, refCos, refDegToRad, refPi]
  · norm_num [Ballistics_solve.init, refEnv, slowShot, refSin, refDegToRad, refPi]

/-- The first pass of a `slowShot` straight up or straight down: the speed is
1 ft/s, the time step half a second, sample 0 is stored with range 0, and the
projectile leaves the pass with velocity `0.9999 - (θ/90)·16.097` along the bore. -/
theorem slowShot_first_pass (cap : Nat) (hcap : 1 ≤ cap) (θ : ℚ) (hθ : θ = 90 ∨ θ = -90)
    (c : Call ℚ)
    (hc : c = Call.solve (slowShot θ) ∨ c = Call.solve_modified_vertDeflect (slowBullet θ)) :
    ∃ s1, c.pass (refEnv cap) (Ballistics_solve.init (refEnv cap) junkHeap c.args) = some s1 ∧
      s1.t = 0 ∧ s1.dt = 1 / 2 ∧ s1.v = 1 ∧ s1.vy = 0 ∧
      s1.vx = 9999 / 10000 - θ / 90 * 16.097 ∧ s1.x = (s1.vx + 1) / 4 ∧ s1.n = 1 ∧
      s1.yardages.length = cap ∧ ∃ p, s1.yardages[0]? = some p ∧ p.range_yards = 0 := by
  obtain ⟨hargs, hdrag, hgx, hgy, hvx, hvy⟩ := slowShot_consts cap θ hθ c hc
  rw [hargs]
  have hlen : (Ballistics_solve.init (refEnv cap) junkHeap (slowShot θ)).yardages.length = cap := by
    simp [Ballistics_solve.init, Ballistics_alloc, refEnv]
  cases hb : c.pass (refEnv cap) (Ballistics_solve.init (refEnv cap) junkHeap (slowShot θ)) with
  | none =>
    exact absurd hb (Call.pass_safe _ c _ (by rw [hlen]; exact hcap))
  | some s1 =>
    have m := Call.pass_motion _ c _ s1 hb
    have st := Call.pass_step _ c _ s1 hb
    rw [hargs, hgx, hgy] at m
    have hv : s1.v = 1 := by
      rw [m.v_eq, hvx, hvy, refEnv_sqrt_sq]
      norm_num
    have hdt : s1.dt = 1 / 2 := by
      rw [m.dt_eq, hv]
      norm_num
    have hdv : s1.dv = 1 / 5000 := by
      rw [m.dv_eq, hdrag, hv]
      norm_num
    have hvy1 : s1.vy = 0 := by
      rw [m.vy_eq, m.dvy_eq, hvy]
      simp
    have hvx1 : s1.vx = 9999 / 10000 - θ / 90 * 16.097 := by
      rw [m.vx_eq, m.dvx_eq, hvx, hv, hdt, hdv]
      ring
    have hx1 : s1.x = (s1.vx + 1) / 4 := by
      rw [m.x_eq, m.vx1_eq, hvx, hdt]
      simp only [Ballistics_solve.init]
      ring
    refine ⟨s1, rfl, ?_, hdt, hv, hvy1, hvx1, hx1, ?_⟩
    · rw [m.t_eq]
      rfl
    · rcases st.2.2 with ⟨hno, _⟩ | ⟨_, p, q, hp, h1, h2, _, hq, _⟩
      · exact absurd (by simp [Ballistics_solve.init]) hno
      · refine ⟨h2, by rw [h1, List.length_set, hlen], q, ?_, ?_⟩
        · rw [h1]
          exact (getElem?_set_stored hp).1
        · rw [hq]
          simp [Ballistics_solve.init]

/-- The run of a `slowShot` straight down into a table of two rows: the loop
makes two passes; the second one starts 4.524225 ft downrange and stores
sample 1 with a range of 1.508075 yards. -/
theorem slowDrop_passes (c : Call ℚ)
    (hc : c = Call.solve (slowShot (-90)) ∨
      c = Call.solve_modified_vertDeflect (slowBullet (-90))) :
    ∃ s1 s2,
      c.pass (refEnv 2) (Ballistics_solve.init (refEnv 2) junkHeap c.args) = some s1 ∧
      exitTest (refEnv 2) s1 = false ∧
      c.pass (refEnv 2) (advance s1) = some s2 ∧
      exitTest (refEnv 2) s2 = true ∧
      s1.v = 1 ∧ s2.v = 170969 / 10000 ∧ s2.n = 2 ∧
      ∃ p, s2.yardages[1]? = some p ∧ p.range_yards = 60323 / 40000 := by
  obtain ⟨s1, hb1, ht, hdt, hv, hvy, hvx, hx, hn, hlen, _⟩ :=
    slowShot_first_pass 2 (by norm_num) (-90) (Or.inr rfl) c hc
  have hvx' : s1.vx = 170969 / 10000 := by
    rw [hvx]
    norm_num
  have hx' : s1.x = 180969 / 40000 := by
    rw [hx, hvx']
    norm_num
  have ht1 : exitTest (refEnv 2) s1 = false := by
    simp [exitTest, hvy, hn, refEnv]
  cases hb2 : c.pass (refEnv 2) (advance s1) with
  | none =>
    exact absurd hb2 (Call.pass_safe _ c _ (by simp [advance, hlen, hn]))
  | some s2 =>
    have m := Call.pass_motion _ c _ s2 hb2
    have st := Call.pass_step _ c _ s2 hb2
    have hv2 : s2.v = 170969 / 10000 := by
      rw [m.v_eq]
      simp only [advance, hvx', hvy]
      rw [refEnv_sqrt_sq]
      norm_num [abs_of_pos]
    rcases st.2.2 with ⟨hno, _⟩ | ⟨_, p, q, hp, h1, h2, _, hq, _⟩
    · exact absurd (by simp only [advance, hn, hx']; norm_num) hno
    · have hn2 : s2.n = 2 := by
        rw [h2]
        simp [advance, hn]
      refine ⟨s1, s2, hb1, ht1, hb2, ?_, hv, hv2, hn2, q, ?_, ?_⟩
      · simp [exitTest, hn2, refEnv]
      · rw [h1]
        have := (getElem?_set_stored (q := q) hp).1
        simpa [advance, hn] using this
      · rw [hq]
        simp only [advance, hx']
        norm_num

/-- The run of a `slowShot` straight down into a table of two rows returns a
count of 2. -/
theorem slowDrop_run (c : Call ℚ)
    (hc : c = Call.solve (slowShot (-90)) ∨
      c = Call.solve_modified_vertDeflect (slowBullet (-90))) :
    ∃ b, c.run (refEnv 2) junkHeap 2 = Outcome.done (b, 2) ∧
      ∃ p, b.yardages[1]? = some p ∧ p.range_yards = 60323 / 40000 := by
  obtain ⟨s1, s2, hb1, ht1, hb2, ht2, _, _, hn2, hp⟩ := slowDrop_passes c hc
  refine ⟨(finish s2).1, ?_, hp⟩
  rw [Call.run_eq]
  simp [forLoop, hb1, ht1, hb2, ht2, finish, hn2]

/-- In the run of a `slowShot` straight down into a table of two rows the
speed is positive in every pass. -/
theorem slowDrop_speed (c : Call ℚ)
    (hc : c = Call.solve (slowShot (-90)) ∨
      c = Call.solve_modified_vertDeflect (slowBullet (-90))) :
    ∀ k s', passEnd (c.pass (refEnv 2)) (exitTest (refEnv 2)) k
      (Ballistics_solve.init (refEnv 2) junkHeap c.args) = some s' → 0 < s'.v := by
  obtain ⟨s1, s2, hb1, ht1, hb2, ht2, hv1, hv2, _, _⟩ := slowDrop_passes c hc
  intro k s' hk
  match k with
  | 0 =>
    simp only [passEnd, hb1, Option.some.injEq] at hk
    rw [← hk, hv1]
    norm_num
  | 1 =>
    simp only [passEnd, hb1, ht1, hb2, Bool.false_eq_true, if_false, Option.some.injEq] at hk
    rw [← hk, hv2]
    norm_num
  | k + 2 =>
    simp [passEnd, hb1, ht1, hb2, ht2] at hk

/-- A `slowShot` straight up that is falling back (negative velocity along the
bore, behind the muzzle, one sample stored) is still falling back after
another pass, and the exit test fails. -/
theorem slowRise_keeps_falling (cap : Nat) (hcap : 2 ≤ cap) (c : Call ℚ)
    (hc : c = Call.solve (slowShot 90) ∨ c = Call.solve_modified_vertDeflect (slowBullet 90))
    (s : Loop ℚ)
    (hs : s.vx < 0 ∧ s.vy = 0 ∧ s.x < 0 ∧ s.n = 1 ∧ s.yardages.length = cap) :
    ∃ s', c.pass (refEnv cap) s = some s' ∧ exitTest (refEnv cap) s' = false ∧
      s'.vx < 0 ∧ s'.vy = 0 ∧ s'.x < 0 ∧ s'.n = 1 ∧ s'.yardages.length = cap := by
  obtain ⟨hvx, hvy, hx, hn, hlen⟩ := hs
  obtain ⟨hargs, hdrag, hgx, hgy, _, _⟩ := slowShot_consts cap 90 (Or.inl rfl) c hc
  cases hb : c.pass (refEnv cap) s with
  | none =>
    exact absurd hb (Call.pass_safe _ c _ (by omega))
  | some s' =>
    have m := Call.pass_motion _ c _ s' hb
    have st := Call.pass_step _ c _ s' hb
    rw [hargs, hgx, hgy] at m
    have hv : s'.v = -s.vx := by
      rw [m.v_eq, hvy, refEnv_sqrt_sq, abs_of_neg hvx]
    have hv0 : 0 < s'.v := by
      rw [hv]
      linarith
    have hdt : 0 < s'.dt := by
      rw [m.dt_eq]
      exact div_pos (by norm_num) hv0
    have hvx1 : s.vx = -s'.v := by
      rw [hv]
      ring
    have hvx' : s'.vx = -(9999 / 10000 * s'.v) - 16.097 / s'.v := by
      rw [m.vx_eq, m.dvx_eq, m.dv_eq, hdrag, m.dt_eq, hvx1]
      field_simp
      ring
    have hneg : s'.vx < 0 := by
      have h1 : 0 < 9999 / 10000 * s'.v := by positivity
      have h2 : 0 < 16.097 / s'.v := div_pos (by norm_num) hv0
      rw [hvx']
      linarith
    have hvy' : s'.vy = 0 := by
      rw [m.vy_eq, m.dvy_eq, hvy]
      simp
    have hx' : s'.x < 0 := by
      have h1 : s'.dt * (s'.vx + s'.vx1) < 0 :=
        mul_neg_of_pos_of_neg hdt (by rw [m.vx1_eq]; linarith)
      rw [m.x_eq]
      linarith
    rcases st.2.2 with ⟨_, h1, h2, _⟩ | ⟨hyes, _⟩
    · refine ⟨s', rfl, ?_, hneg, hvy', hx', by rw [h1, hn], by rw [h2, hlen]⟩
      have hcap' : ¬ cap ≤ 1 := by omega
      simp [exitTest, hvy', h1, hn, refEnv, hcap']
    · rw [hn] at hyes
      have : (1 : ℚ) ≤ s.x / 3 := by simpa using hyes
      linarith

/-- Once a `slowShot` straight up is falling back, its loop uses up any step
budget. -/
theorem slowRise_falling_timeout (cap : Nat) (hcap : 2 ≤ cap) (c : Call ℚ)
    (hc : c = Call.solve (slowShot 90) ∨ c = Call.solve_modified_vertDeflect (slowBullet 90)) :
    ∀ (fuel : Nat) (s : Loop ℚ),
      s.vx < 0 ∧ s.vy = 0 ∧ s.x < 0 ∧ s.n = 1 ∧ s.yardages.length = cap →
      forLoop (c.pass (refEnv cap)) (exitTest (refEnv cap)) fuel s = Outcome.timeout
  | 0, _, _ => rfl
  | fuel + 1, s, hs => by
    obtain ⟨s', hb, ht, h⟩ := slowRise_keeps_falling cap hcap c hc s hs
    simp only [forLoop, hb, ht]
    exact slowRise_falling_timeout cap hcap c hc fuel (advance s') h

/-- The loop of a `slowShot` straight up into a table of at least two rows
uses up any step budget: after the first pass the projectile falls back
behind the muzzle and neither exit condition is ever met. -/
theorem slowRise_timeout (cap : Nat) (hcap : 2 ≤ cap) (c : Call ℚ)
    (hc : c = Call.solve (slowShot 90) ∨ c = Call.solve_modified_vertDeflect (slowBullet 90))
    (fuel : Nat) : c.run (refEnv cap) junkHeap fuel = Outcome.timeout := by
  have hloop : forLoop (c.pass (refEnv cap)) (exitTest (refEnv cap)) fuel
      (Ballistics_solve.init (refEnv cap) junkHeap c.args) = Outcome.timeout := by
    cases fuel with
    | zero => rfl
    | succ fuel =>
      obtain ⟨s1, hb1, _, _, _, hvy, hvx, hx, hn, hlen, _⟩ :=
        slowShot_first_pass cap (by omega) 90 (Or.inl rfl) c hc
      have hvx' : s1.vx = -150971 / 10000 := by
        rw [hvx]
        norm_num
      have hx' : s1.x < 0 := by
        rw [hx, hvx']
        norm_num
      have hcap' : ¬ cap ≤ 1 := by omega
      have ht1 : exitTest (refEnv cap) s1 = false := by
        simp [exitTest, hvy, hn, refEnv, hcap']
      simp only [forLoop, hb1, ht1]
      exact slowRise_falling_timeout cap hcap c hc fuel (advance s1)
        ⟨by simp only [advance, hvx']; norm_num, hvy, hx', hn, hlen⟩
  rw [Call.run_eq, hloop]

/-! ## Closed instances of the claims about the solvers -/

/-- C3 fails as stated: `Ballistics_solve` for a projectile sent straight down
at 1 ft/s into a table of two rows returns 2, and its sample at index 1 has a
range of 1.508075 yards, not 1. -/
theorem C3_range_differs_from_index :
    ∃ b, Ballistics_solve (refEnv 2) junkHeap 2 (slowShot (-90)) = Outcome.done (b, 2) ∧
      ∃ p, b.yardages[1]? = some p ∧ p.range_yards = 60323 / 40000 ∧
        p.range_yards ≠ ((1 : Nat) : ℚ) := by
  obtain ⟨b, hb, p, hp, hr⟩ := slowDrop_run (Call.solve (slowShot (-90))) (Or.inl rfl)
  refine ⟨b, hb, p, hp, hr, ?_⟩
  rw [hr]
  norm_num

/-- Both solvers on the shot straight down: each returns 2 and both rows have
a range of at least their index. -/
theorem C3_range_reaches_index_witness :
    (∃ b, Call.run (refEnv 2) junkHeap 2 (Call.solve (slowShot (-90))) = Outcome.done (b, 2) ∧
      ∀ i : Nat, (i : Int) < 2 → ∃ p, b.yardages[i]? = some p ∧
        (i : ℚ) ≤ p.range_yards ∧ (i = 0 → p.range_yards = 0)) ∧
    (∃ b, Call.run (refEnv 2) junkHeap 2
        (Call.solve_modified_vertDeflect (slowBullet (-90))) = Outcome.done (b, 2) ∧
      ∀ i : Nat, (i : Int) < 2 → ∃ p, b.yardages[i]? = some p ∧
        (i : ℚ) ≤ p.range_yards ∧ (i = 0 → p.range_yards = 0)) := by
  constructor
  · obtain ⟨b, hb, _⟩ := slowDrop_run (Call.solve (slowShot (-90))) (Or.inl rfl)
    exact ⟨b, hb, C3_range_reaches_index _ _ _ _ b 2 hb⟩
  · obtain ⟨b, hb, _⟩ :=
      slowDrop_run (Call.solve_modified_vertDeflect (slowBullet (-90))) (Or.inr rfl)
    exact ⟨b, hb, C3_range_reaches_index _ _ _ _ b 2 hb⟩

/-- C5 fails on the code: for a projectile sent straight up at 1 ft/s (still
air, table of 50001 rows) the loop of `Ballistics_solve` never ends. After the
first pass the projectile falls back behind the muzzle; from then on `vy`
stays 0, so `|vy| > 3|vx|` never holds, and no further sample is stored, so the
count stays at 1: every step budget is used up. -/
theorem C5_straight_up_never_returns :
    ∀ fuel, Ballistics_solve (refEnv 50001) junkHeap fuel (slowShot 90) = Outcome.timeout :=
  fun fuel => slowRise_timeout 50001 (by norm_num) (Call.solve (slowShot 90)) (Or.inl rfl) fuel

/-- Both solvers on the shot straight down into a table of two rows: neither
faults, each returns 2 with two rows stored at the indices 0 and 1. -/
theorem C6_count_within_capacity_witness :
    1 ≤ (refEnv 2).BALLISTICS_COMPUTATION_MAX_YARDS ∧
    (∀ fuel, Call.run (refEnv 2) junkHeap fuel (Call.solve (slowShot (-90))) ≠ Outcome.fault) ∧
    (∃ b, Call.run (refEnv 2) junkHeap 2 (Call.solve (slowShot (-90))) = Outcome.done (b, 2) ∧
      b.max_yardage = 2 ∧ b.yardages.length = 2 ∧
      ∃ s, forLoop (Call.pass (refEnv 2) (Call.solve (slowShot (-90)))) (exitTest (refEnv 2)) 2
          (Ballistics_solve.init (refEnv 2) junkHeap (slowShot (-90))) = Outcome.done s ∧
        s.writes = List.range s.n ∧ (2 : Int) = (s.writes.length : Int) ∧
        ∀ i ∈ s.writes, i < 2) := by
  have hcap : 1 ≤ (refEnv 2).BALLISTICS_COMPUTATION_MAX_YARDS := by simp [refEnv]
  obtain ⟨b, hb, _⟩ := slowDrop_run (Call.solve (slowShot (-90))) (Or.inl rfl)
  have h := C6_count_within_capacity (refEnv 2) junkHeap (Call.solve (slowShot (-90))) hcap
  obtain ⟨_, _, hm, hl, hs⟩ := h.2 2 b 2 hb
  exact ⟨hcap, h.1, b, hb, hm, hl, hs⟩

/-- The solver `Ballistics_solve_modified_vertDeflect` on the shot straight down returns
2 and both rows have `corrected_windage = windage_inches + spindrift_inches`. -/
theorem C10_corrected_windage_is_sum_witness :
    ∃ b, Ballistics_solve_modified_vertDeflect (refEnv 2) junkHeap 2 (slowBullet (-90)) =
        Outcome.done (b, 2) ∧
      ∀ i : Nat, (i : Int) < 2 → ∃ p, b.yardages[i]? = some p ∧
        p.corrected_windage = p.windage_inches + p.spindrift_inches := by
  obtain ⟨b, hb, _⟩ :=
    slowDrop_run (Call.solve_modified_vertDeflect (slowBullet (-90))) (Or.inr rfl)
  exact ⟨b, hb, C10_corrected_windage_is_sum _ _ _ _ b 2 hb⟩

/-! ## Stability and correction model -/

/-- C7: for non-zero caliber, bullet length, twist and pressure,
`calculateGS(m, twist, d, len, vel, temp, inHg)` is
`(30*m) / (t^2 * d^3 * l * (1 + l^2)) * cbrt(vel/2800) *
((temp+460)*29.92 / ((59+460)*inHg))` with `t = twist/d` and `l = len/d`, and
neither divisor of this expression is zero. -/
theorem C7_calculateGS_formula (E : Env F) (m twist d len vel temp inHg : F)
    (hd : d ≠ 0) (hlen : len ≠ 0) (htwist : twist ≠ 0) (hp : inHg ≠ 0) :
    calculateGS E m twist d len vel temp inHg =
      (30 * m) / ((twist / d) ^ 2 * d ^ 3 * (len / d) * (1 + (len / d) ^ 2)) *
        E.cbrt (vel / 2800) * ((temp + 460) * 29.92 / ((59 + 460) * inHg)) ∧
    (twist / d) ^ 2 * d ^ 3 * (len / d) * (1 + (len / d) ^ 2) ≠ 0 ∧
    (59 + 460) * inHg ≠ 0 := by
  refine ⟨?_, ?_, ?_⟩
  · simp only [calculateGS, mul_assoc]
  · have h1 : twist / d ≠ 0 := div_ne_zero htwist hd
    have h2 : len / d ≠ 0 := div_ne_zero hlen hd
    have h3 : (1 : F) + (len / d) ^ 2 ≠ 0 := by positivity
    exact mul_ne_zero (mul_ne_zero (mul_ne_zero (pow_ne_zero 2 h1) (pow_ne_zero 3 hd)) h2) h3
  · exact mul_ne_zero (by norm_num) hp

/-- The bullet of `example.c` at 2800 ft/s in the standard atmosphere. -/
theorem C7_calculateGS_formula_witness :
    (0.308 : ℚ) ≠ 0 ∧ (1.215 : ℚ) ≠ 0 ∧ (12 : ℚ) ≠ 0 ∧ (29.92 : ℚ) ≠ 0 ∧
    calculateGS (refEnv 2) 168 12 0.308 1.215 2800 59 29.92 =
      (30 * 168) / ((12 / 0.308) ^ 2 * 0.308 ^ 3 * (1.215 / 0.308) *
        (1 + (1.215 / 0.308) ^ 2)) *
        (refEnv 2).cbrt (2800 / 2800) * ((59 + 460) * 29.92 / ((59 + 460) * 29.92)) :=
  ⟨by norm_num, by norm_num, by norm_num, by norm_num,
    (C7_calculateGS_formula (refEnv 2) 168 12 0.308 1.215 2800 59 29.92
      (by norm_num) (by norm_num) (by norm_num) (by norm_num)).1⟩

/-- C8: `calculateSpinDriftOffsetIn(gs, tof)` is `-1.25*(gs+1.2)*tof^1.83` for
`tof ≥ 0`, and it is negative for `gs > -1.2` and `tof > 0`, the power
`pow(tof, 1.83)` of a positive `tof` being positive. -/
theorem C8_spin_drift_formula_and_sign (E : Env F)
    (hpow : ∀ t : F, 0 < t → 0 < E.pow t 1.83) (gs tof : F) :
    (0 ≤ tof → calculateSpinDriftOffsetIn E gs tof = -1.25 * (gs + 1.2) * E.pow tof 1.83) ∧
    (-1.2 < gs → 0 < tof → calculateSpinDriftOffsetIn E gs tof < 0) := by
  constructor
  · intro _
    simp only [calculateSpinDriftOffsetIn]
    ring
  · intro hgs htof
    have h1 : 0 < gs + 1.2 := by linarith
    have h2 := hpow tof htof
    have h3 : 0 < 1.25 * (gs + 1.2) * E.pow tof 1.83 :=
      mul_pos (mul_pos (by norm_num) h1) h2
    simp only [calculateSpinDriftOffsetIn]
    linarith

/-- A stability factor of 1.5 after one second of flight: the offset is
-3.375 inches. -/
theorem C8_spin_drift_formula_and_sign_witness :
    (∀ t : ℚ, 0 < t → 0 < (refEnv 2).pow t 1.83) ∧ (0 : ℚ) ≤ 1 ∧ (-1.2 : ℚ) < 1.5 ∧
    (0 : ℚ) < 1 ∧
    calculateSpinDriftOffsetIn (refEnv 2) 1.5 1 = -1.25 * (1.5 + 1.2) * (refEnv 2).pow 1 1.83 ∧
    calculateSpinDriftOffsetIn (refEnv 2) 1.5 1 < 0 := by
  have hpow : ∀ t : ℚ, 0 < t → 0 < (refEnv 2).pow t 1.83 := by
    intro t ht
    have h : ¬ (1.83 : ℚ) = 0.5 := by norm_num
    simp only [refEnv, h, if_false]
    have : 0 < (1.83 - 1) * t ^ 2 := by positivity
    have : 0 < (2 - 1.83) * t := mul_pos (by norm_num) ht
    linarith
  have h := C8_spin_drift_formula_and_sign (refEnv 2) hpow 1.5 1
  exact ⟨hpow, by norm_num, by norm_num, by norm_num, h.1 (by norm_num),
    h.2 (by norm_num) (by norm_num)⟩

/-- C9: for a non-zero caliber, `calculateVerticalDeflection(gs, length,
caliber)` is `0.01*gs - 0.0024*(length/caliber) + 0.032`; it is affine in `gs`
with slope 0.01. -/
theorem C9_vertical_deflection_affine (gs length caliber : F) (_hc : caliber ≠ 0) :
    calculateVerticalDeflection gs length caliber =
      0.01 * gs - 0.0024 * (length / caliber) + 0.032 ∧
    ∀ gs' : F, calculateVerticalDeflection gs' length caliber -
      calculateVerticalDeflection gs length caliber = 0.01 * (gs' - gs) := by
  refine ⟨rfl, fun gs' => ?_⟩
  simp only [calculateVerticalDeflection]
  ring

/-- The bullet of `example.c` at a stability factor of 2. -/
theorem C9_vertical_deflection_affine_witness :
    (0.308 : ℚ) ≠ 0 ∧
    calculateVerticalDeflection (2 : ℚ) 1.215 0.308 =
      0.01 * 2 - 0.0024 * (1.215 / 0.308) + 0.032 ∧
    ∀ gs' : ℚ, calculateVerticalDeflection gs' 1.215 0.308 -
      calculateVerticalDeflection 2 1.215 0.308 = 0.01 * (gs' - 2) :=
  ⟨by norm_num, C9_vertical_deflection_affine 2 1.215 0.308 (by norm_num)⟩

/-! ## The rows the solvers store -/

/-- A pass of `Ballistics_solve` that stores a sample stores
`Ballistics_solve.row`. -/
theorem solve_pass_row (E : Env F) (a : SolveArgs F) (s s' : Loop F)
    (h : Ballistics_solve.pass E a s = some s') :
    Step (fun s s' p q => q = Ballistics_solve.row E a s s' p) s s' := by
  unfold Ballistics_solve.pass Ballistics_solve.body at h
  simp only at h
  split at h
  · exact absurd h (by simp)
  · rename_i r hr
    split at hr
    · rename_i hc
      unfold Ballistics_solve.record at hr
      simp only at hr
      split at hr
      · exact absurd hr (by simp)
      · rename_i p hp
        simp only [Option.some.injEq] at hr h
        subst hr
        subst h
        exact ⟨rfl, rfl, Or.inr ⟨hc, p, _, hp, rfl, rfl, rfl, rfl, rfl, rfl⟩⟩
    · rename_i hc
      simp only [Option.some.injEq] at hr h
      subst hr
      subst h
      exact ⟨rfl, rfl, Or.inl ⟨hc, rfl, rfl, rfl⟩⟩

/-- A pass of `Ballistics_solve_modified_vertDeflect` that stores a sample
stores `Ballistics_solve_modified_vertDeflect.row`. -/
theorem vertDeflect_pass_row (E : Env F) (a : DeflectArgs F) (s s' : Loop F)
    (h : Ballistics_solve_modified_vertDeflect.pass E a s = some s') :
    Step (fun s s' p q => q = Ballistics_solve_modified_vertDeflect.row E a s s' p) s s' := by
  unfold Ballistics_solve_modified_vertDeflect.pass
    Ballistics_solve_modified_vertDeflect.body at h
  simp only at h
  split at h
  · exact absurd h (by simp)
  · rename_i r hr
    split at hr
    · rename_i hc
      unfold Ballistics_solve_modified_vertDeflect.record at hr
      simp only at hr
      split at hr
      · exact absurd hr (by simp)
      · rename_i p hp
        simp only [Option.some.injEq] at hr h
        subst hr
        subst h
        exact ⟨rfl, rfl, Or.inr ⟨hc, p, _, hp, rfl, rfl, rfl, rfl, rfl, rfl⟩⟩
    · rename_i hc
      simp only [Option.some.injEq] at hr h
      subst hr
      subst h
      exact ⟨rfl, rfl, Or.inl ⟨hc, rfl, rfl, rfl⟩⟩

/-! ## Further claims about the accessors and the solvers -/

/-- C14 fails on the code: the accessors test the index against the row count
only from above. On `demoTable`, which has one valid row, the index -1 passes
the test `yardage < max_yardage` of each of the twelve accessors, and the read
`yardages[-1]` that follows lies outside the block: no accessor returns 0 and
none reads a row in `[0, N)`. -/
theorem C14_negative_index_read_outside_block :
    (-1 : Int) < demoTable.max_yardage ∧ readPoint demoTable (-1) = none ∧
    Ballistics_get_range demoTable (-1) = none ∧ Ballistics_get_path demoTable (-1) = none ∧
    Ballistics_get_moa demoTable (-1) = none ∧ Ballistics_get_time demoTable (-1) = none ∧
    Ballistics_get_windage demoTable (-1) = none ∧
    Ballistics_get_spindrift demoTable (-1) = none ∧
    Ballistics_get_windage_moa demoTable (-1) = none ∧
    Ballistics_get_corrected_windage demoTable (-1) = none ∧
    Ballistics_get_corrected_windage_moa demoTable (-1) = none ∧
    Ballistics_get_v_fps demoTable (-1) = none ∧ Ballistics_get_vx_fps demoTable (-1) = none ∧
    Ballistics_get_vy_fps demoTable (-1) = none := by
  simp [Ballistics_get_range, Ballistics_get_path, Ballistics_get_moa, Ballistics_get_time,
    Ballistics_get_windage, Ballistics_get_spindrift, Ballistics_get_windage_moa,
    Ballistics_get_corrected_windage, Ballistics_get_corrected_windage_moa,
    Ballistics_get_v_fps, Ballistics_get_vx_fps, Ballistics_get_vy_fps, readPoint, demoTable]

/-- When the loop of either solver ends, at least one sample has been stored
and the stored rows have ranges that reach their indices. -/
theorem Call.loop_rangesReach (E : Env F) (h : Heap F) (c : Call F) (fuel : Nat) (s : Loop F)
    (hs : forLoop (c.pass E) (exitTest E) fuel (Ballistics_solve.init E h c.args) =
      Outcome.done s) :
    RangesReach s ∧ 1 ≤ s.n := by
  refine (forLoop_induct (fun _ => True) RangesReach (fun s => RangesReach s ∧ 1 ≤ s.n)
    ?_ ?_ fuel _ s ?_ (fun _ _ _ => trivial) hs).1
  · intro s s' hI hb _
    have st := Call.pass_step E c s s' hb
    refine ⟨st.rangesReach hI, ?_⟩
    rcases st.2.2 with ⟨hno, h1, _⟩ | ⟨_, _, _, _, _, h2, _⟩
    · rw [h1]
      by_contra hn
      have h0 : s.n = 0 := by omega
      exact hno (by simp [h0, hI.1 h0])
    · omega
  · intro s' hJ _
    exact hJ.1
  · refine ⟨fun _ => rfl, fun i hi => ?_⟩
    simp [Ballistics_solve.init] at hi

/-- C12: in the table of `Ballistics_solve_modified_vertDeflect` called with
`wind_speed = 0`, the helpers `crosswind` and `windage` giving 0 for zero wind
speed, every sample below the returned count has `windage_inches = 0` and
`corrected_windage = spindrift_inches`. -/
theorem C12_zero_wind_windage (E : Env F) (h : Heap F) (fuel : Nat) (a : DeflectArgs F)
    (hws : a.wind_speed = 0)
    (hcross : ∀ wind_angle, E.crosswind 0 wind_angle = 0)
    (hwindage : ∀ vi x t, E.windage 0 vi x t = 0)
    (b : Ballistics F) (N : Int)
    (hrun : Ballistics_solve_modified_vertDeflect E h fuel a = Outcome.done (b, N)) :
    ∀ i : Nat, (i : Int) < N → ∃ p, b.yardages[i]? = some p ∧
      p.windage_inches = 0 ∧ p.corrected_windage = p.spindrift_inches := by
  obtain ⟨s, hs, hb, _, hN⟩ :=
    Call.run_done E h fuel (Call.solve_modified_vertDeflect a) b N hrun
  have hcw : crosswindOf E a.toSolveArgs = 0 := by
    rw [crosswindOf, hws]
    exact hcross _
  have hr := loop_rowsSatisfy
    (Q := fun q => q.windage_inches = 0 ∧ q.corrected_windage = q.spindrift_inches)
    (vertDeflect_pass_row E a)
    (fun s s' p q hq => by
      subst hq
      simp [Ballistics_solve_modified_vertDeflect.row, hcw, hwindage])
    fuel _ s (init_rowsSatisfy E h a.toSolveArgs _) hs
  intro i hi
  rw [hb]
  exact hr.2 i (by omega)

/-! ## The first sample and its path in double arithmetic -/

/-- The rounding of `q` when its floor `f` is known. -/
theorem roundHalfEven_eq (q : ℚ) (f m : ℤ) (hf : (f : ℚ) ≤ q ∧ q < f + 1)
    (hm : (if q - f < 1 / 2 then f else if 1 / 2 < q - f then f + 1
      else if f % 2 = 0 then f else f + 1) = m) : roundHalfEven q = m := by
  have hfl : ⌊q⌋ = f := Int.floor_eq_iff.mpr hf
  rw [roundHalfEven, hfl]
  exact hm

/-- Rounding to an integer moves a number by at most one half. -/
theorem roundHalfEven_error (q : ℚ) : |(roundHalfEven q : ℚ) - q| ≤ 1 / 2 := by
  have h0 := Int.floor_le q
  have h1 := Int.lt_floor_add_one q
  unfold roundHalfEven
  split_ifs <;> push_cast <;> rw [abs_le] <;> constructor <;> linarith

/-- The `double` nearest to `q` when the binary exponent `k` of `q` and the
rounded significand `m` are known. -/
theorem binary64_eq (q : ℚ) (k m : ℤ) (hk : -1022 ≤ k) (hlo : (2 : ℚ) ^ k ≤ |q|)
    (hhi : |q| < (2 : ℚ) ^ (k + 1)) (hm : roundHalfEven (q / (2 : ℚ) ^ (k - 52)) = m)
    (hfin : |(m : ℚ) * (2 : ℚ) ^ (k - 52)| < (2 : ℚ) ^ (1024 : ℤ)) :
    binary64 q = some ((m : ℚ) * (2 : ℚ) ^ (k - 52)) := by
  have hq : 0 < |q| := lt_of_lt_of_le (by positivity) hlo
  have hlog : Int.log 2 |q| = k := by
    apply le_antisymm
    · have := (Int.lt_zpow_iff_log_lt (b := 2) (by norm_num) hq (x := k + 1)).mp
        (by exact_mod_cast hhi)
      omega
    · exact (Int.zpow_le_iff_le_log (b := 2) (by norm_num) hq).mp (by exact_mod_cast hlo)
  have hne : q ≠ 0 := by
    intro h
    rw [h] at hq
    simp at hq
  simp only [binary64, if_neg hne, hlog, max_eq_left hk, hm, if_pos hfin]

/-- A number of normal magnitude has a nearest `double`, which differs from it
by at most the fraction `2^(-53)` of its magnitude. -/
theorem binary64_error (q : ℚ) (hlo : (2 : ℚ) ^ (-1022 : ℤ) ≤ |q|)
    (hhi : |q| ≤ (2 : ℚ) ^ (1023 : ℤ)) :
    ∃ r, binary64 q = some r ∧ |r - q| ≤ |q| * (2 : ℚ) ^ (-53 : ℤ) := by
  have hq : 0 < |q| := lt_of_lt_of_le (by positivity) hlo
  have hne : q ≠ 0 := by
    intro h
    rw [h] at hq
    simp at hq
  have hL : -1022 ≤ Int.log 2 |q| :=
    (Int.zpow_le_iff_le_log (b := 2) (by norm_num) hq).mp (by exact_mod_cast hlo)
  have hpow : (2 : ℚ) ^ Int.log 2 |q| ≤ |q| := by
    have := Int.zpow_log_le_self (b := 2) (r := |q|) (by norm_num) hq
    exact_mod_cast this
  have he : (0 : ℚ) < (2 : ℚ) ^ (Int.log 2 |q| - 52) := by positivity
  have hsplit : (2 : ℚ) ^ (Int.log 2 |q| - 52) =
      (2 : ℚ) ^ Int.log 2 |q| * (2 : ℚ) ^ (-53 : ℤ) * 2 := by
    rw [zpow_sub₀ (by norm_num : (2 : ℚ) ≠ 0)]
    norm_num
    ring
  have herr := roundHalfEven_error (q / (2 : ℚ) ^ (Int.log 2 |q| - 52))
  have hdist : |(roundHalfEven (q / (2 : ℚ) ^ (Int.log 2 |q| - 52)) : ℚ) *
      (2 : ℚ) ^ (Int.log 2 |q| - 52) - q| ≤ |q| * (2 : ℚ) ^ (-53 : ℤ) := by
    have hrw : (roundHalfEven (q / (2 : ℚ) ^ (Int.log 2 |q| - 52)) : ℚ) *
        (2 : ℚ) ^ (Int.log 2 |q| - 52) - q =
        ((roundHalfEven (q / (2 : ℚ) ^ (Int.log 2 |q| - 52)) : ℚ) -
          q / (2 : ℚ) ^ (Int.log 2 |q| - 52)) * (2 : ℚ) ^ (Int.log 2 |q| - 52) := by
      field_simp
    rw [hrw, abs_mul, abs_of_pos he]
    calc _ ≤ 1 / 2 * (2 : ℚ) ^ (Int.log 2 |q| - 52) :=
          mul_le_mul_of_nonneg_right herr he.le
      _ = (2 : ℚ) ^ Int.log 2 |q| * (2 : ℚ) ^ (-53 : ℤ) := by
          rw [hsplit]
          ring
      _ ≤ |q| * (2 : ℚ) ^ (-53 : ℤ) := mul_le_mul_of_nonneg_right hpow (by positivity)
  refine ⟨_, ?_, hdist⟩
  have hfin : |(roundHalfEven (q / (2 : ℚ) ^ (Int.log 2 |q| - 52)) : ℚ) *
      (2 : ℚ) ^ (Int.log 2 |q| - 52)| < (2 : ℚ) ^ (1024 : ℤ) := by
    have h1 := abs_sub_abs_le_abs_sub
      ((roundHalfEven (q / (2 : ℚ) ^ (Int.log 2 |q| - 52)) : ℚ) *
        (2 : ℚ) ^ (Int.log 2 |q| - 52)) q
    have h53 : (2 : ℚ) ^ (-53 : ℤ) = 1 / 9007199254740992 := by norm_num
    have h3 : (2 : ℚ) ^ (1023 : ℤ) + (2 : ℚ) ^ (1023 : ℤ) = (2 : ℚ) ^ (1024 : ℤ) := by
      norm_num
    rw [h53] at hdist
    linarith
  simp only [binary64, if_neg hne, max_eq_left hL, if_pos hfin]

/-- C18 (amended): with a capacity of at least one row, the first pass of
either solver stores a sample at index 0, and whenever a solver returns, the
count is at least 1 and sample 0 has range 0 and, for `Ballistics_solve`, the
path `(-sight_height/12)*12`. In `double` arithmetic this product differs from
`-sight_height` by at most the fraction `2^(-51)` of the sight height, for
sight heights of a magnitude between `2^(-1018)` and `2^1000`. -/
theorem C18_first_pass_records (E : Env F) (h : Heap F) (c : Call F)
    (hcap : 1 ≤ E.BALLISTICS_COMPUTATION_MAX_YARDS) :
    (∃ s1, c.pass E (Ballistics_solve.init E h c.args) = some s1 ∧ s1.n = 1 ∧
      s1.writes = [0]) ∧
    (∀ fuel b N, c.run E h fuel = Outcome.done (b, N) →
      1 ≤ N ∧ ∃ p, b.yardages[0]? = some p ∧ p.range_yards = 0 ∧
        ∀ a, c = Call.solve a → p.path_inches = -a.sight_height / 12 * 12) ∧
    ∀ sh : ℚ, (2 : ℚ) ^ (-1018 : ℤ) ≤ |sh| → |sh| ≤ (2 : ℚ) ^ (1000 : ℤ) →
      ∃ p, Ballistics_solve.firstPathBinary64 sh = some p ∧
        |p - -sh| ≤ |sh| * (2 : ℚ) ^ (-51 : ℤ) := by
  refine ⟨?_, ?_, ?_⟩
  case refine_3 =>
    intro sh hlo hhi
    have habs : |-sh / 12| = |sh| / 12 := by
      rw [abs_div, abs_neg]
      norm_num [abs_of_pos]
    obtain ⟨y, hy, hey⟩ := binary64_error (-sh / 12)
      (by
        rw [habs]
        have : (2 : ℚ) ^ (-1022 : ℤ) * 12 ≤ (2 : ℚ) ^ (-1018 : ℤ) := by norm_num
        rw [le_div_iff₀ (by norm_num)]
        linarith)
      (by
        rw [habs]
        have : (2 : ℚ) ^ (1000 : ℤ) ≤ (2 : ℚ) ^ (1023 : ℤ) := by norm_num
        rw [div_le_iff₀ (by norm_num)]
        nlinarith [abs_nonneg sh])
    rw [habs] at hey
    have hy1 := abs_sub_abs_le_abs_sub y (-sh / 12)
    have hy2 := abs_sub_abs_le_abs_sub (-sh / 12) y
    rw [abs_sub_comm (-sh / 12) y] at hy2
    rw [habs] at hy1 hy2
    have habs12 : |y * 12| = |y| * 12 := by
      rw [abs_mul]
      norm_num [abs_of_pos]
    have h53 : (2 : ℚ) ^ (-53 : ℤ) = 1 / 9007199254740992 := by norm_num
    have h51 : (2 : ℚ) ^ (-51 : ℤ) = 4 / 9007199254740992 := by norm_num
    rw [h53] at hey
    obtain ⟨p, hp, hep⟩ := binary64_error (y * 12)
      (by
        rw [habs12]
        have : (2 : ℚ) ^ (-1022 : ℤ) * 2 ≤ (2 : ℚ) ^ (-1018 : ℤ) := by norm_num
        linarith [abs_nonneg sh])
      (by
        rw [habs12]
        have : (2 : ℚ) ^ (1000 : ℤ) * 2 ≤ (2 : ℚ) ^ (1023 : ℤ) := by norm_num
        linarith [abs_nonneg sh])
    rw [habs12, h53] at hep
    refine ⟨p, by simp [Ballistics_solve.firstPathBinary64, Ballistics_solve.yBinary64,
      Ballistics_solve.pathBinary64, hy, hp], ?_⟩
    have htri : |p - -sh| ≤ |p - y * 12| + |y * 12 - -sh| := abs_sub_le _ _ _
    have h12 : |y * 12 - -sh| = |y - -sh / 12| * 12 := by
      have : y * 12 - -sh = (y - -sh / 12) * 12 := by ring
      rw [this, abs_mul]
      norm_num [abs_of_pos]
    rw [h51]
    linarith [abs_nonneg sh, abs_nonneg y]
  · have hlen : (Ballistics_solve.init E h c.args).yardages.length =
        E.BALLISTICS_COMPUTATION_MAX_YARDS := by
      simp [Ballistics_solve.init, Ballistics_alloc]
    cases hb : c.pass E (Ballistics_solve.init E h c.args) with
    | none => exact absurd hb (Call.pass_safe E c _ (by rw [hlen]; exact hcap))
    | some s1 =>
      rcases (Call.pass_step E c _ s1 hb).2.2 with ⟨hno, _⟩ | ⟨_, _, _, _, _, h2, h3, _⟩
      · exact absurd (by simp [Ballistics_solve.init]) hno
      · exact ⟨s1, rfl, h2, h3⟩
  · intro fuel b N hrun
    obtain ⟨s, hs, hb, _, hN⟩ := Call.run_done E h fuel c b N hrun
    obtain ⟨hr, h1⟩ := Call.loop_rangesReach E h c fuel s hs
    obtain ⟨p, hp, _, hp0⟩ := hr.2 0 (by omega)
    refine ⟨by omega, p, by rw [hb]; exact hp, hp0 rfl, ?_⟩
    intro a hc
    subst hc
    have hpath : (s.n = 0 → s.x = 0 ∧ s.y = -a.sight_height / 12) ∧
        (1 ≤ s.n → ∃ q, s.yardages[0]? = some q ∧ q.path_inches = -a.sight_height / 12 * 12) := by
      refine (forLoop_induct (fun _ => True)
        (fun s => (s.n = 0 → s.x = 0 ∧ s.y = -a.sight_height / 12) ∧
          (1 ≤ s.n → ∃ q, s.yardages[0]? = some q ∧ q.path_inches = -a.sight_height / 12 * 12))
        (fun s => (s.n = 0 → s.x = 0 ∧ s.y = -a.sight_height / 12) ∧
          (1 ≤ s.n → ∃ q, s.yardages[0]? = some q ∧ q.path_inches = -a.sight_height / 12 * 12))
        ?_ ?_ fuel _ s ?_ (fun _ _ _ => trivial) hs).1
      · intro s s' hI hb' _
        rcases (solve_pass_row E a s s' hb').2.2 with
          ⟨hno, h1', h2', _⟩ | ⟨_, p', q, hp', h1', h2', _, _, _, hq⟩
        · have hn : 1 ≤ s.n := by
            by_contra hn
            have h0 : s.n = 0 := by omega
            exact hno (by simp [h0, (hI.1 h0).1])
          refine ⟨fun h0 => by omega, fun _ => ?_⟩
          rw [h2']
          exact hI.2 hn
        · refine ⟨fun h0 => by omega, fun _ => ?_⟩
          rw [h1']
          rcases Nat.eq_zero_or_pos s.n with h0 | hpos
          · refine ⟨q, ?_, ?_⟩
            · have := (getElem?_set_stored (q := q) hp').1
              simpa [h0] using this
            · rw [hq]
              simp only [Ballistics_solve.row, (hI.1 h0).2]
          · obtain ⟨q0, hq0, hq0'⟩ := hI.2 hpos
            exact ⟨q0, by rw [(getElem?_set_stored (q := q) hp').2 0 hpos]; exact hq0, hq0'⟩
      · intro s' hJ _
        exact hJ
      · exact ⟨fun _ => ⟨rfl, rfl⟩, fun h0 => by simp [Ballistics_solve.init] at h0⟩
    obtain ⟨q, hq, hq'⟩ := hpath.2 h1
    have : p = q := by
      have := hp.symm.trans hq
      simpa using this
    rw [this]
    exact hq'

/-- C19: in the table of either solver every sample below the returned count
has a range of at least its index; the samples were stored at the indices
`0, 1, ..., N-1` in this order, each exactly once; and a pass through the loop
body stores at most one sample, at the index of the counter. -/
theorem C19_rows_once_in_order (E : Env F) (h : Heap F) (fuel : Nat) (c : Call F)
    (b : Ballistics F) (N : Int) (hrun : c.run E h fuel = Outcome.done (b, N)) :
    (∀ i : Nat, (i : Int) < N → ∃ p, b.yardages[i]? = some p ∧ (i : F) ≤ p.range_yards) ∧
    (∃ s, forLoop (c.pass E) (exitTest E) fuel (Ballistics_solve.init E h c.args) =
        Outcome.done s ∧ (s.n : Int) = N ∧ s.writes = List.range s.n ∧ s.writes.Nodup) ∧
    ∀ s s', c.pass E s = some s' →
      (s'.n = s.n ∧ s'.writes = s.writes) ∨
      (s'.n = s.n + 1 ∧ s'.writes = s.writes ++ [s.n]) := by
  obtain ⟨s, hs, hb, _, hN⟩ := Call.run_done E h fuel c b N hrun
  obtain ⟨hr, _⟩ := Call.loop_rangesReach E h c fuel s hs
  obtain ⟨_, hw, _⟩ := Call.loop_filled E h c fuel s hs
  refine ⟨fun i hi => ?_, ⟨s, hs, hN.symm, hw, by rw [hw]; exact List.nodup_range _⟩, ?_⟩
  · obtain ⟨p, hp, hle, _⟩ := hr.2 i (by omega)
    exact ⟨p, by rw [hb]; exact hp, hle⟩
  · intro s s' hb'
    rcases (Call.pass_step E c s s' hb').2.2 with ⟨_, h1, _, h3⟩ | ⟨_, _, _, _, _, h2, h3, _⟩
    · exact Or.inl ⟨h1, h3⟩
    · exact Or.inr ⟨h2, h3⟩

/-! ## The two solvers side by side -/

/-- With a form factor at which `retardModified` is `retard`, no crosswind and
`tan 0 = 0`, a pass of `Ballistics_solve_modified_vertDeflect` shadows a pass
of `Ballistics_solve`. -/
theorem shadow_pass (E : Env F) (a : DeflectArgs F)
    (hret : ∀ v, E.retardModified a.drag_function a.drag_coefficient v a.formFactor =
      E.retard a.drag_function a.drag_coefficient v)
    (hcw : E.crosswind a.wind_speed a.wind_angle = 0) (htan : E.tan 0 = 0)
    (s s' : Loop F) (hsh : Shadow s s') :
    (Ballistics_solve.pass E a.toSolveArgs s = none ∧
      Ballistics_solve_modified_vertDeflect.pass E a s' = none) ∨
    ∃ r r', Ballistics_solve.pass E a.toSolveArgs s = some r ∧
      Ballistics_solve_modified_vertDeflect.pass E a s' = some r' ∧ Shadow r r' := by
  obtain ⟨heq, hlen, hrows⟩ := hsh
  rw [heq]
  unfold Ballistics_solve.pass Ballistics_solve.body
    Ballistics_solve_modified_vertDeflect.pass Ballistics_solve_modified_vertDeflect.body
    Ballistics_solve.record Ballistics_solve_modified_vertDeflect.record
  simp only [hret, hcw, mul_zero, zero_mul, htan, add_zero]
  by_cases hc : s.x / 3 ≥ (s.n : F)
  · simp only [hc, if_true]
    cases hy : s.yardages[s.n]? with
    | none =>
      have hy' : s'.yardages[s.n]? = none := by
        rw [List.getElem?_eq_none_iff] at hy ⊢
        omega
      simp [hy']
    | some p =>
      obtain ⟨hn, _⟩ := List.getElem?_eq_some.mp hy
      have hn' : s.n < s'.yardages.length := by omega
      have hy' : s'.yardages[s.n]? = some s'.yardages[s.n] := List.getElem?_eq_getElem hn'
      right
      simp only [hy', Option.some.injEq, exists_and_left, exists_eq_left']
      refine ⟨rfl, by simp [hlen], ?_⟩
      intro i p1 q1 h1 h2
      simp only at h1 h2
      by_cases hi : s.n = i
      · subst hi
        rw [List.getElem?_set_self hn] at h1
        rw [List.getElem?_set_self hn'] at h2
        simp only [Option.some.injEq] at h1 h2
        subst h1
        subst h2
        simp [SameRow]
      · rw [List.getElem?_set_ne hi] at h1
        rw [List.getElem?_set_ne hi] at h2
        exact hrows i p1 q1 h1 h2
  · right
    simp only [hc, if_false, Option.some.injEq, exists_and_left, exists_eq_left']
    exact ⟨rfl, hlen, hrows⟩

/-- Shadowing states pass or fail the exit test together and stay shadowing
under the loop increment. -/
theorem Shadow.next {s s' : Loop F} (E : Env F) (hsh : Shadow s s') :
    exitTest E s' = exitTest E s ∧ Shadow (advance s) (advance s') := by
  obtain ⟨heq, hlen, hrows⟩ := hsh
  refine ⟨by rw [heq]; rfl, ?_, hlen, hrows⟩
  simp only [advance]
  rw [heq]

/-- Under the conditions of `shadow_pass` the loops of the two solvers, run
with the same step budget from shadowing states, end in the same way, and if
they end by leaving the loop, in shadowing states. -/
theorem shadow_loop (E : Env F) (a : DeflectArgs F)
    (hret : ∀ v, E.retardModified a.drag_function a.drag_coefficient v a.formFactor =
      E.retard a.drag_function a.drag_coefficient v)
    (hcw : E.crosswind a.wind_speed a.wind_angle = 0) (htan : E.tan 0 = 0) :
    ∀ (fuel : Nat) (s s' : Loop F), Shadow s s' →
      (forLoop (Ballistics_solve.pass E a.toSolveArgs) (exitTest E) fuel s = Outcome.timeout ∧
        forLoop (Ballistics_solve_modified_vertDeflect.pass E a) (exitTest E) fuel s' =
          Outcome.timeout) ∨
      (forLoop (Ballistics_solve.pass E a.toSolveArgs) (exitTest E) fuel s = Outcome.fault ∧
        forLoop (Ballistics_solve_modified_vertDeflect.pass E a) (exitTest E) fuel s' =
          Outcome.fault) ∨
      ∃ r r', forLoop (Ballistics_solve.pass E a.toSolveArgs) (exitTest E) fuel s =
          Outcome.done r ∧
        forLoop (Ballistics_solve_modified_vertDeflect.pass E a) (exitTest E) fuel s' =
          Outcome.done r' ∧ Shadow r r'
  | 0, _, _, _ => Or.inl ⟨rfl, rfl⟩
  | fuel + 1, s, s', hsh => by
    rcases shadow_pass E a hret hcw htan s s' hsh with ⟨h1, h2⟩ | ⟨r, r', h1, h2, hr⟩
    · exact Or.inr (Or.inl ⟨by simp [forLoop, h1], by simp [forLoop, h2]⟩)
    · obtain ⟨ht, hnext⟩ := hr.next E
      cases htr : exitTest E r with
      | true =>
        refine Or.inr (Or.inr ⟨r, r', ?_, ?_, hr⟩)
        · simp [forLoop, h1, htr]
        · simp [forLoop, h2, ht, htr]
      | false =>
        have ih := shadow_loop E a hret hcw htan fuel (advance r) (advance r') hnext
        simp only [forLoop, h1, h2, ht, htr]
        exact ih

/-- C13: when `retardModified` at form factor 1.0 is `retard`, the crosswind
component is zero and `tan 0 = 0`, then for the same arguments, memory and
step budget `Ballistics_solve` returns exactly when
`Ballistics_solve_modified_vertDeflect` does, both return the same count, and
at every index below it the two tables agree in range, path, elevation MOA,
time, windage, windage MOA and the three velocity fields. -/
theorem C13_solvers_agree (E : Env F) (h : Heap F) (fuel : Nat) (a : DeflectArgs F)
    (hff : a.formFactor = 1.0)
    (hret : ∀ drag_function drag_coefficient v,
      E.retardModified drag_function drag_coefficient v 1.0 =
        E.retard drag_function drag_coefficient v)
    (hcw : E.crosswind a.wind_speed a.wind_angle = 0) (htan : E.tan 0 = 0) :
    (∀ b N, Ballistics_solve E h fuel a.toSolveArgs = Outcome.done (b, N) →
      ∃ b', Ballistics_solve_modified_vertDeflect E h fuel a = Outcome.done (b', N) ∧
        ∀ i : Nat, (i : Int) < N → ∃ p q, b.yardages[i]? = some p ∧
          b'.yardages[i]? = some q ∧ SameRow p q) ∧
    (∀ b' N, Ballistics_solve_modified_vertDeflect E h fuel a = Outcome.done (b', N) →
      ∃ b, Ballistics_solve E h fuel a.toSolveArgs = Outcome.done (b, N) ∧
        ∀ i : Nat, (i : Int) < N → ∃ p q, b.yardages[i]? = some p ∧
          b'.yardages[i]? = some q ∧ SameRow p q) := by
  have hret' : ∀ v, E.retardModified a.drag_function a.drag_coefficient v a.formFactor =
      E.retard a.drag_function a.drag_coefficient v := by
    intro v
    rw [hff]
    exact hret _ _ v
  have h0 : Shadow (Ballistics_solve.init E h a.toSolveArgs)
      (Ballistics_solve.init E h a.toSolveArgs) := by
    refine ⟨rfl, rfl, fun i p q hp hq => ?_⟩
    have : p = q := by
      have := hp.symm.trans hq
      simpa using this
    subst this
    simp [SameRow]
  have hrows : ∀ r r' : Loop F, Shadow r r' → r.n ≤ r.yardages.length →
      r'.n = r.n ∧ ∀ i : Nat, i < r.n → ∃ p q, r.yardages[i]? = some p ∧
        r'.yardages[i]? = some q ∧ SameRow p q := by
    intro r r' hr hn
    obtain ⟨heq, hlen, hsame⟩ := hr
    refine ⟨by rw [heq], fun i hi => ?_⟩
    have hi1 : i < r.yardages.length := by omega
    have hi2 : i < r'.yardages.length := by omega
    exact ⟨r.yardages[i], r'.yardages[i], List.getElem?_eq_getElem hi1,
      List.getElem?_eq_getElem hi2,
      hsame i _ _ (List.getElem?_eq_getElem hi1) (List.getElem?_eq_getElem hi2)⟩
  have hloop := shadow_loop E a hret' hcw htan fuel _ _ h0
  constructor
  · intro b N hrun
    obtain ⟨s, hs, hb, _, hN⟩ := Call.run_done E h fuel (Call.solve a.toSolveArgs) b N hrun
    have hfill := Call.loop_filled E h (Call.solve a.toSolveArgs) fuel s hs
    simp only [Call.pass, Call.args] at hs
    rcases hloop with ⟨h1, _⟩ | ⟨h1, _⟩ | ⟨r, r', h1, h2, hr⟩
    · rw [hs] at h1
      exact absurd h1 (by simp)
    · rw [hs] at h1
      exact absurd h1 (by simp)
    · rw [hs] at h1
      simp only [Outcome.done.injEq] at h1
      subst h1
      obtain ⟨hn, hsame⟩ := hrows s r' hr (by rw [hfill.1]; exact hfill.2.2)
      refine ⟨(finish r').1, ?_, fun i hi => ?_⟩
      · simp only [Ballistics_solve_modified_vertDeflect, h2, finish, hn, hN]
      · rw [hb]
        exact hsame i (by omega)
  · intro b' N hrun
    obtain ⟨s', hs', hb', _, hN⟩ :=
      Call.run_done E h fuel (Call.solve_modified_vertDeflect a) b' N hrun
    simp only [Call.pass, Call.args] at hs'
    rcases hloop with ⟨_, h2⟩ | ⟨_, h2⟩ | ⟨r, r', h1, h2, hr⟩
    · rw [hs'] at h2
      exact absurd h2 (by simp)
    · rw [hs'] at h2
      exact absurd h2 (by simp)
    · rw [hs'] at h2
      simp only [Outcome.done.injEq] at h2
      subst h2
      have hfill := Call.loop_filled E h (Call.solve a.toSolveArgs) fuel r h1
      obtain ⟨hn, hsame⟩ := hrows r s' hr (by rw [hfill.1]; exact hfill.2.2)
      refine ⟨(finish r).1, ?_, fun i hi => ?_⟩
      · simp only [Ballistics_solve, h1, finish, ← hn, hN]
      · rw [hb']
        exact hsame i (by omega)

/-! ## Stability along the trajectory -/

/-- A `Step` can be stated with any weaker fact about the stored row. -/
theorem Step.mono {P : Loop F → Loop F → Point F → Point F → Prop} {s s' : Loop F}
    (h : Step P s s') (P' : Loop F → Loop F → Point F → Point F → Prop)
    (hPP : ∀ p q, P s s' p q → P' s s' p q) : Step P' s s' := by
  refine ⟨h.1, h.2.1, h.2.2.imp id ?_⟩
  rintro ⟨hc, p, q, hp, h1, h2, h3, h4, h5, hP⟩
  exact ⟨hc, p, q, hp, h1, h2, h3, h4, h5, hPP p q hP⟩

/-- With positive mass, twist, caliber, bullet length, pressure and speed, a
temperature above -460 °F and a cube root that is positive on positive
numbers, `calculateGS` is positive. -/
theorem calculateGS_pos (E : Env F) (hcbrt : ∀ x : F, 0 < x → 0 < E.cbrt x)
    (m twist d len vel temp inHg : F) (hm : 0 < m) (htwist : 0 < twist) (hd : 0 < d)
    (hlen : 0 < len) (hvel : 0 < vel) (htemp : -460 < temp) (hp : 0 < inHg) :
    0 < calculateGS E m twist d len vel temp inHg := by
  have h1 : 0 < twist / d := div_pos htwist hd
  have h2 : 0 < len / d := div_pos hlen hd
  have h3 : 0 < E.cbrt (vel / 2800) := hcbrt _ (div_pos hvel (by norm_num))
  have h4 : 0 < temp + 460 := by linarith
  have h5 : 0 < (30 * m) / ((twist / d) ^ 2 * d ^ 3 * ((len / d) * (1 + (len / d) ^ 2))) := by
    positivity
  have h6 : 0 < ((temp + 460) * 29.92) / ((59 + 460) * inHg) := by
    have : (0 : F) < 29.92 := by norm_num
    positivity
  simp only [calculateGS]
  exact mul_pos (mul_pos h5 h3) h6

/-- C20: in a run of `Ballistics_solve_modified_vertDeflect` with positive
bullet mass, twist, caliber, bullet length and pressure, a temperature above
-460 °F and a positive speed `v` in every pass (`cbrt` and `pow(·, 1.83)`
being positive on positive numbers), the stability factor computed in every
pass is positive, and every sample below the returned count has
`spindrift_inches < 0` and `corrected_windage < windage_inches`. -/
theorem C20_stability_positive_spin_negative (E : Env F) (h : Heap F) (fuel : Nat)
    (a : DeflectArgs F)
    (hcbrt : ∀ x : F, 0 < x → 0 < E.cbrt x) (hpow : ∀ t : F, 0 < t → 0 < E.pow t 1.83)
    (hm : 0 < a.bulletGrains) (htwist : 0 < a.twistDenominator)
    (hd : 0 < a.caliberInInches) (hlen : 0 < a.bulletLengthInInches) (hp : 0 < a.inHg)
    (htemp : -460 < a.temp)
    (b : Ballistics F) (N : Int)
    (hrun : Ballistics_solve_modified_vertDeflect E h fuel a = Outcome.done (b, N))
    (hv : ∀ k s', passEnd (Ballistics_solve_modified_vertDeflect.pass E a) (exitTest E) k
      (Ballistics_solve.init E h a.toSolveArgs) = some s' → 0 < s'.v) :
    (∀ k s', passEnd (Ballistics_solve_modified_vertDeflect.pass E a) (exitTest E) k
      (Ballistics_solve.init E h a.toSolveArgs) = some s' → 0 < currentGs E a s'.v) ∧
    ∀ i : Nat, (i : Int) < N → ∃ p, b.yardages[i]? = some p ∧
      p.spindrift_inches < 0 ∧ p.corrected_windage < p.windage_inches := by
  have hgs : ∀ v : F, 0 < v → 0 < currentGs E a v := fun v hv' =>
    calculateGS_pos E hcbrt _ _ _ _ v _ _ hm htwist hd hlen hv' htemp hp
  refine ⟨fun k s' hk => hgs _ (hv k s' hk), ?_⟩
  obtain ⟨s, hs, hb, _, hN⟩ :=
    Call.run_done E h fuel (Call.solve_modified_vertDeflect a) b N hrun
  simp only [Call.pass, Call.args] at hs
  have hr : 0 ≤ s.t + s.dt ∧
      RowsSatisfy (fun q => q.spindrift_inches < 0 ∧ q.corrected_windage < q.windage_inches)
        s := by
    refine (forLoop_induct (fun s => 0 < s.v)
      (fun s => 0 ≤ s.t ∧ RowsSatisfy
        (fun q => q.spindrift_inches < 0 ∧ q.corrected_windage < q.windage_inches) s)
      (fun s => 0 ≤ s.t + s.dt ∧ RowsSatisfy
        (fun q => q.spindrift_inches < 0 ∧ q.corrected_windage < q.windage_inches) s)
      ?_ ?_ fuel _ s ?_ hv hs).1
    · intro s s' hI hb' hpos
      have st := vertDeflect_pass_row E a s s' hb'
      have hdt : 0 < s'.dt := by
        rw [st.2.1]
        exact div_pos (by norm_num) hpos
      have htof : 0 < s.t + s'.dt := by linarith [hI.1]
      refine ⟨by rw [st.1]; exact le_of_lt htof, ?_⟩
      have st' : Step (fun _ _ _ (q : Point F) =>
          q.spindrift_inches < 0 ∧ q.corrected_windage < q.windage_inches) s s' := by
        refine st.mono _ ?_
        intro p q hq
        have hspin : calculateSpinDriftOffsetIn E (currentGs E a s'.v) (s.t + s'.dt) < 0 := by
          have h1 : 0 < currentGs E a s'.v + 1.2 := by
            have := hgs _ hpos
            have h12 : (0 : F) < 1.2 := by norm_num
            linarith
          have h2 := hpow _ htof
          have h3 : 0 < 1.25 * (currentGs E a s'.v + 1.2) * E.pow (s.t + s'.dt) 1.83 :=
            mul_pos (mul_pos (by norm_num) h1) h2
          simp only [calculateSpinDriftOffsetIn]
          linarith
        subst hq
        simp only [Ballistics_solve_modified_vertDeflect.row]
        exact ⟨hspin, by linarith⟩
      exact Step.rowsSatisfy
        (Q := fun q => q.spindrift_inches < 0 ∧ q.corrected_windage < q.windage_inches)
        (fun _ _ _ _ hq => hq) st' hI.2
    · intro s' hJ _
      exact hJ
    · exact ⟨le_of_eq rfl, init_rowsSatisfy E h a.toSolveArgs _⟩
  intro i hi
  rw [hb]
  exact hr.2.2 i (by omega)

/-- A fact that holds of the state in which the loop is entered and is kept by
a pass followed by the loop increment holds of every state in which a pass is
entered. -/
theorem passStart_inv {body : Loop F → Option (Loop F)} {test : Loop F → Bool}
    (K : Loop F → Prop)
    (hK : ∀ s s', K s → body s = some s' → test s' = false → K (advance s')) :
    ∀ (k : Nat) (s0 s : Loop F), K s0 → passStart body test k s0 = some s → K s
  | 0, s0, s, h0, hk => by
    simp only [passStart, Option.some.injEq] at hk
    rw [← hk]
    exact h0
  | k + 1, s0, s, h0, hk => by
    cases hb : body s0 with
    | none => simp [passStart, hb] at hk
    | some s' =>
      cases ht : test s' with
      | true => simp [passStart, hb, ht] at hk
      | false =>
        simp only [passStart, hb, ht] at hk
        exact passStart_inv K hK k (advance s') s (hK s0 s' h0 hb ht) hk

/-- Every pass of either solver after the first is entered with at least one
sample stored. -/
theorem Call.passStart_stored (E : Env F) (h : Heap F) (c : Call F) (k : Nat) (s : Loop F)
    (hk : passStart (c.pass E) (exitTest E) (k + 1) (Ballistics_solve.init E h c.args) =
      some s) : 1 ≤ s.n := by
  cases hb : c.pass E (Ballistics_solve.init E h c.args) with
  | none => simp [passStart, hb] at hk
  | some s1 =>
    cases ht : exitTest E s1 with
    | true => simp [passStart, hb, ht] at hk
    | false =>
      simp only [passStart, hb, ht] at hk
      have h1 : 1 ≤ (advance s1).n := by
        rcases (Call.pass_step E c _ s1 hb).2.2 with ⟨hno, _⟩ | ⟨_, _, _, _, _, h2, _⟩
        · exact absurd (by simp [Ballistics_solve.init]) hno
        · simp only [advance]
          omega
      refine passStart_inv (fun s => 1 ≤ s.n) ?_ k (advance s1) s h1 hk
      intro s s' hs hb' _
      rcases (Call.pass_step E c s s' hb').2.2 with ⟨_, h1', _⟩ | ⟨_, _, _, _, _, h2, _⟩
      · simp only [advance]
        omega
      · simp only [advance]
        omega

/-! ## The divisions of the integrator -/

/-- Every pass of either solver divides by the speed. -/
theorem Call.passTraced_speed (E : Env F) (c : Call F) (s : Loop F) :
    (Divisor.speed, E.pow (s.vx ^ 2 + s.vy ^ 2) 0.5) ∈ (c.passTraced E s).2 := by
  cases c with
  | solve a =>
    simp only [Call.passTraced]
    unfold Ballistics_solve.passTraced Ballistics_solve.bodyTraced
    simp [bind, tdiv]
  | solve_modified_vertDeflect a =>
    simp only [Call.passTraced]
    unfold Ballistics_solve_modified_vertDeflect.passTraced
      Ballistics_solve_modified_vertDeflect.bodyTraced
    simp [bind, tdiv]

/-- A pass of either solver that stores a sample divides by `x`. -/
theorem Call.passTraced_downrange (E : Env F) (c : Call F) (s : Loop F)
    (hc : (s.n : F) ≤ s.x / 3) (hn : s.n < s.yardages.length) :
    (Divisor.downrange, s.x) ∈ (c.passTraced E s).2 := by
  have hy : s.yardages[s.n]? = some s.yardages[s.n] := List.getElem?_eq_getElem hn
  cases c with
  | solve a =>
    simp only [Call.passTraced]
    unfold Ballistics_solve.passTraced Ballistics_solve.bodyTraced
      Ballistics_solve.recordTraced
    simp [bind, pure, tdiv, hc, hy]
  | solve_modified_vertDeflect a =>
    simp only [Call.passTraced]
    unfold Ballistics_solve_modified_vertDeflect.passTraced
      Ballistics_solve_modified_vertDeflect.bodyTraced
      Ballistics_solve_modified_vertDeflect.recordTraced
    simp [bind, pure, tdiv, hc, hy]

/-- C15 (amended): the traced entry state and the traced passes compute the
entry state and the passes of the solvers. For an initial velocity above 0
whose direction is not lost by `cos` and `sin`, a square root that is positive
on positive numbers, a velocity `(vx, vy)` other than zero on entry to every
pass after the first and, for the corrected solver, a positive caliber, bullet
length, twist and pressure: the division before the loop has a non-zero
divisor, and a division in pass `k` with a zero divisor is a division by `x`
made while sample 0 is stored in the first pass (`k = 0`) at `x = 0`. With a
capacity of at least one row the first pass does divide by `x = 0`. -/
theorem C15_zero_divisors_only_at_muzzle (E : Env F) (h : Heap F) (c : Call F)
    (hvi : 0 < c.args.vi)
    (htrig : E.cos (E.deg_to_rad c.args.zero_angle) ≠ 0 ∨
      E.sin (E.deg_to_rad c.args.zero_angle) ≠ 0)
    (hsqrt : ∀ x : F, 0 < x → 0 < E.pow x 0.5)
    (hbullet : ∀ a, c = Call.solve_modified_vertDeflect a →
      0 < a.caliberInInches ∧ 0 < a.bulletLengthInInches ∧ 0 < a.twistDenominator ∧
        0 < a.inHg)
    (hmove : ∀ k s, passStart (c.pass E) (exitTest E) (k + 1)
      (Ballistics_solve.init E h c.args) = some s → s.vx ≠ 0 ∨ s.vy ≠ 0) :
    ((Ballistics_solve.initTraced E h c.args).1 = Ballistics_solve.init E h c.args ∧
      ∀ s, (c.passTraced E s).1 = c.pass E s) ∧
    (∀ e ∈ (Ballistics_solve.initTraced E h c.args).2, e.2 ≠ 0) ∧
    (∀ k s, passStart (c.pass E) (exitTest E) k (Ballistics_solve.init E h c.args) = some s →
      ∀ e ∈ (c.passTraced E s).2, e.2 = 0 →
        k = 0 ∧ e.1 = Divisor.downrange ∧ s.n = 0 ∧ s.x = 0) ∧
    (1 ≤ E.BALLISTICS_COMPUTATION_MAX_YARDS →
      (Divisor.downrange, (0 : F)) ∈
        (c.passTraced E (Ballistics_solve.init E h c.args)).2) := by
  have hfst : ∀ s, (c.passTraced E s).1 = c.pass E s := by
    intro s
    cases c with
    | solve a =>
      simp only [Call.passTraced, Call.pass]
      unfold Ballistics_solve.passTraced Ballistics_solve.bodyTraced Ballistics_solve.pass
        Ballistics_solve.body Ballistics_solve.recordTraced Ballistics_solve.record
      by_cases hc : s.x / 3 ≥ (s.n : F)
      · cases hy : s.yardages[s.n]? <;> simp [bind, pure, tdiv, hc, hy]
      · simp [bind, pure, tdiv, hc]
    | solve_modified_vertDeflect a =>
      simp only [Call.passTraced, Call.pass]
      unfold Ballistics_solve_modified_vertDeflect.passTraced
        Ballistics_solve_modified_vertDeflect.bodyTraced
        Ballistics_solve_modified_vertDeflect.pass Ballistics_solve_modified_vertDeflect.body
        Ballistics_solve_modified_vertDeflect.recordTraced
        Ballistics_solve_modified_vertDeflect.record calculateGS.traced
        calculateVerticalDeflection.traced calculateGS calculateVerticalDeflection
      by_cases hc : s.x / 3 ≥ (s.n : F)
      · cases hy : s.yardages[s.n]? <;> simp [bind, pure, tdiv, hc, hy]
      · simp [bind, pure, tdiv, hc]
  have hzero : ∀ s, E.pow (s.vx ^ 2 + s.vy ^ 2) 0.5 ≠ 0 →
      ∀ e ∈ (c.passTraced E s).2, e.2 = 0 →
        e.1 = Divisor.downrange ∧ (s.n : F) ≤ s.x / 3 ∧ s.x = 0 := by
    intro s hv
    cases c with
    | solve a =>
      simp only [Call.passTraced]
      unfold Ballistics_solve.passTraced Ballistics_solve.bodyTraced
        Ballistics_solve.recordTraced
      by_cases hc : s.x / 3 ≥ (s.n : F)
      · cases hy : s.yardages[s.n]? <;> simp [bind, pure, tdiv, hc, hy, hv]
      · simp [bind, pure, tdiv, hc, hv]
    | solve_modified_vertDeflect a =>
      obtain ⟨hd, hl, ht, hp⟩ := hbullet a rfl
      have h1 : 0 < a.twistDenominator / a.caliberInInches := div_pos ht hd
      have h2 : 0 < a.bulletLengthInInches / a.caliberInInches := div_pos hl hd
      have hmiller : (a.twistDenominator / a.caliberInInches) ^ 2 * a.caliberInInches ^ 3 *
          (a.bulletLengthInInches / a.caliberInInches *
            (1 + (a.bulletLengthInInches / a.caliberInInches) ^ 2)) ≠ 0 := by
        positivity
      have hd' := ne_of_gt hd
      have hp' := ne_of_gt hp
      have h519 : ¬ ((59 : F) + 460 = 0) := by norm_num
      have h180 : ¬ ((180.0 : F) = 0) := by norm_num
      have h60 : ¬ ((60.0 : F) = 0) := by norm_num
      simp only [Call.passTraced]
      unfold Ballistics_solve_modified_vertDeflect.passTraced
        Ballistics_solve_modified_vertDeflect.bodyTraced
        Ballistics_solve_modified_vertDeflect.recordTraced calculateGS.traced
        calculateVerticalDeflection.traced
      by_cases hc : s.x / 3 ≥ (s.n : F)
      · cases hy : s.yardages[s.n]? <;>
          simp [bind, pure, tdiv, hc, hy, hv, hd', hp', hmiller] <;>
          exact ⟨h519, h180, h60⟩
      · simp [bind, pure, tdiv, hc, hv, hd', hp', hmiller]
        exact ⟨h519, h180, h60⟩
  refine ⟨⟨rfl, hfst⟩, ?_, ?_, ?_⟩
  · intro e he
    change e ∈ [(Divisor.constant, (12 : F))] at he
    rw [List.mem_singleton] at he
    rw [he]
    norm_num
  · intro k s hk e he h0
    have hvel : s.vx ≠ 0 ∨ s.vy ≠ 0 := by
      cases k with
      | zero =>
        simp only [passStart, Option.some.injEq] at hk
        rw [← hk]
        simp only [Ballistics_solve.init]
        rcases htrig with ht | ht
        · exact Or.inl (mul_ne_zero (ne_of_gt hvi) ht)
        · exact Or.inr (mul_ne_zero (ne_of_gt hvi) ht)
      | succ k => exact hmove k s hk
    have hsq : 0 < s.vx ^ 2 + s.vy ^ 2 := by
      rcases hvel with hx | hy
      · have h1 : 0 < s.vx ^ 2 := by positivity
        have h2 : 0 ≤ s.vy ^ 2 := sq_nonneg _
        linarith
      · have h1 : 0 < s.vy ^ 2 := by positivity
        have h2 : 0 ≤ s.vx ^ 2 := sq_nonneg _
        linarith
    have hv := ne_of_gt (hsqrt _ hsq)
    obtain ⟨hsite, hreach, hx⟩ := hzero s hv e he h0
    rw [hx] at hreach
    have hn0 : s.n = 0 := by
      have h3 : (s.n : F) ≤ 0 := by simpa using hreach
      have h4 : (s.n : F) = 0 := le_antisymm h3 (Nat.cast_nonneg _)
      exact_mod_cast h4
    refine ⟨?_, hsite, hn0, hx⟩
    cases k with
    | zero => rfl
    | succ k =>
      have hn := Call.passStart_stored E h c k s hk
      omega
  · intro hcap
    have hlen : (Ballistics_solve.init E h c.args).yardages.length =
        E.BALLISTICS_COMPUTATION_MAX_YARDS := by
      simp [Ballistics_solve.init, Ballistics_alloc]
    have hn0 : (Ballistics_solve.init E h c.args).n = 0 := rfl
    exact Call.passTraced_downrange E c _ (by simp [Ballistics_solve.init])
      (by rw [hlen, hn0]; omega)

/-! ## Rows of the example shots -/

/-- A call of `Ballistics_solve` as a `Call`. -/
theorem Call.run_solve (E : Env F) (h : Heap F) (fuel : Nat) (a : SolveArgs F) :
    Ballistics_solve E h fuel a = Call.run E h fuel (Call.solve a) := rfl

/-- A call of `Ballistics_solve_modified_vertDeflect` as a `Call`. -/
theorem Call.run_vertDeflect (E : Env F) (h : Heap F) (fuel : Nat) (a : DeflectArgs F) :
    Ballistics_solve_modified_vertDeflect E h fuel a =
      Call.run E h fuel (Call.solve_modified_vertDeflect a) := rfl

/-- A loop whose exit test fails after the first pass and holds after the
second one ends after two passes. -/
theorem Call.run_two_passes (E : Env F) (h : Heap F) (c : Call F) (s1 s2 : Loop F)
    (hb1 : c.pass E (Ballistics_solve.init E h c.args) = some s1)
    (ht1 : exitTest E s1 = false)
    (hb2 : c.pass E (advance s1) = some s2) (ht2 : exitTest E s2 = true) :
    c.run E h 2 = Outcome.done (finish s2) := by
  rw [Call.run_eq]
  simp [forLoop, hb1, ht1, hb2, ht2]

/-- The table `Ballistics_solve` returns for the `slowShot` straight down:
row 0 is the row stored by the first pass over what the memory held, and the
first pass ends with speed `v = 1`, `vx = 17.0969` and `vy = 0`. -/
theorem slowDrop_row0 :
    ∃ b s1, Ballistics_solve (refEnv 2) junkHeap 2 (slowShot (-90)) = Outcome.done (b, 2) ∧
      Ballistics_solve.pass (refEnv 2) (slowShot (-90))
        (Ballistics_solve.init (refEnv 2) junkHeap (slowShot (-90))) = some s1 ∧
      s1.v = 1 ∧ s1.dt = 1 / 2 ∧ s1.vx = 170969 / 10000 ∧ s1.vy = 0 ∧
      b.yardages[0]? = some (Ballistics_solve.row (refEnv 2) (slowShot (-90))
        (Ballistics_solve.init (refEnv 2) junkHeap (slowShot (-90))) s1
        (junkHeap.points 0)) := by
  obtain ⟨s1, s2, hb1, ht1, hb2, ht2, _, _, hn2, _⟩ :=
    slowDrop_passes (Call.solve (slowShot (-90))) (Or.inl rfl)
  obtain ⟨s1', hb1', _, hdt, hv, hvy, hvx, _, hn, _, _⟩ :=
    slowShot_first_pass 2 (by norm_num) (-90) (Or.inr rfl) (Call.solve (slowShot (-90)))
      (Or.inl rfl)
  have hs1 : s1' = s1 := by
    have := hb1'.symm.trans hb1
    simpa using this
  subst hs1
  have hc1 := hb1
  have hc2 := hb2
  simp only [Call.pass, Call.args] at hb1 hb2
  have hrow0 : s1'.yardages[0]? = some (Ballistics_solve.row (refEnv 2) (slowShot (-90))
      (Ballistics_solve.init (refEnv 2) junkHeap (slowShot (-90))) s1'
      (junkHeap.points 0)) := by
    rcases (solve_pass_row _ _ _ s1' hb1).2.2 with ⟨hno, _⟩ | ⟨_, p, q, hp, h1, _, _, _, _, hq⟩
    · exact absurd (by simp [Ballistics_solve.init]) hno
    · have hp' : p = junkHeap.points 0 := by
        simp [Ballistics_solve.init, Ballistics_alloc, refEnv] at hp
        exact hp.symm
      have hq' : q = Ballistics_solve.row (refEnv 2) (slowShot (-90))
          (Ballistics_solve.init (refEnv 2) junkHeap (slowShot (-90))) s1'
          (junkHeap.points 0) := by
        rw [hq, hp']
      rw [h1, ← hq']
      have h0 := (getElem?_set_stored (q := q) hp).1
      have hn0 : (Ballistics_solve.init (refEnv 2) junkHeap (slowShot (-90))).n = 0 := rfl
      rw [hn0] at h0
      exact h0
  have hrow0' : s2.yardages[0]? = s1'.yardages[0]? := by
    rcases (solve_pass_row _ _ _ s2 hb2).2.2 with ⟨_, _, h2, _⟩ | ⟨_, p, q, hp, h1, _⟩
    · rw [h2]
      rfl
    · rw [h1]
      have := (getElem?_set_stored (q := q) hp).2 0 (by simp [advance, hn])
      simpa [advance] using this
  refine ⟨(finish s2).1, s1', ?_, hb1, hv, hdt, by rw [hvx]; norm_num, hvy, ?_⟩
  · rw [Call.run_solve, Call.run_two_passes _ _ _ s1' s2 hc1 ht1 hc2 ht2]
    simp [finish, hn2]
  · simp only [finish]
    rw [hrow0', hrow0]

/-- C11 fails on the code: `Ballistics_solve` never assigns `spindrift_inches`,
`corrected_windage` and `corrected_windage_moa`, and `Ballistics_alloc` does not
clear the block. For the `slowShot` straight down in still air, with memory
that held 99 everywhere, sample 0 has windage 0 and windage MOA 0 but a spin
drift, a corrected windage and a corrected windage MOA of 99. -/
theorem C11_base_rows_keep_memory_content :
    ∃ b, Ballistics_solve (refEnv 2) junkHeap 2 (slowShot (-90)) = Outcome.done (b, 2) ∧
      ∃ p, b.yardages[0]? = some p ∧ p.spindrift_inches = 99 ∧
        p.windage_inches = 0 ∧ p.corrected_windage = 99 ∧
        p.windage_moa = 0 ∧ p.corrected_windage_moa = 99 := by
  obtain ⟨b, s1, hrun, _, _, hdt, _, _, hrow⟩ := slowDrop_row0
  refine ⟨b, hrun, _, hrow, ?_, ?_, ?_, ?_, ?_⟩
  · simp [Ballistics_solve.row, junkHeap]
  · simp [Ballistics_solve.row, crosswindOf, refEnv, slowShot]
  · simp [Ballistics_solve.row, junkHeap]
  · simp [Ballistics_solve.row, crosswindOf, refEnv, slowShot, Ballistics_solve.init]
  · simp [Ballistics_solve.row, junkHeap]

/-- C16 fails on the code: `v_fps` is the speed computed from the velocity with
which the pass is entered, `vx_fps` and `vy_fps` are the components after the
velocity update of the pass. For the `slowShot` straight down, sample 0 has
`v_fps = 1` but `vx_fps = 17.0969` and `vy_fps = 0`, whose magnitude is
17.0969. -/
theorem C16_recorded_speed_is_stale :
    ∃ b, Ballistics_solve (refEnv 2) junkHeap 2 (slowShot (-90)) = Outcome.done (b, 2) ∧
      ∃ p, b.yardages[0]? = some p ∧ p.v_fps = 1 ∧ p.vx_fps = 170969 / 10000 ∧
        p.vy_fps = 0 ∧ (refEnv 2).pow (p.vx_fps ^ 2 + p.vy_fps ^ 2) 0.5 = 170969 / 10000 ∧
        p.v_fps ≠ (refEnv 2).pow (p.vx_fps ^ 2 + p.vy_fps ^ 2) 0.5 := by
  obtain ⟨b, s1, hrun, _, hv, _, hvx, hvy, hrow⟩ := slowDrop_row0
  have hsq : (refEnv 2).pow ((170969 / 10000 : ℚ) ^ 2 + 0 ^ 2) 0.5 = 170969 / 10000 := by
    rw [refEnv_sqrt_sq]
    norm_num [abs_of_pos]
  refine ⟨b, hrun, _, hrow, ?_, ?_, ?_, ?_, ?_⟩
  · simp [Ballistics_solve.row, hv]
  · simp [Ballistics_solve.row, hvx]
  · simp [Ballistics_solve.row, hvy]
  · simp only [Ballistics_solve.row, hvx, hvy]
    exact hsq
  · simp only [Ballistics_solve.row, hvx, hvy, hv]
    rw [hsq]
    norm_num

/-- The tangent of the deflection angle of `windyBullet` at a speed of
17.0969 ft/s is positive. -/
theorem windyBullet_tan_pos :
    0 < (refEnv 2).tan (windDeflectionOffsetRad (refEnv 2) windyBullet (170969 / 10000)) := by
  norm_num [windDeflectionOffsetRad, windDeflectionOffsetMOA, currentGs, calculateGS,
    calculateVerticalDeflection, crosswindOf, refEnv, windyBullet, slowBullet, slowShot,
    refSin, refDegToRad, refPi]

/-- The constants of `windyBullet`: the wind blows across the bore, so there is
no headwind and the retardation is `v²/5000`; gravity acts along the bore. -/
theorem windyBullet_consts :
    (∀ v, Call.drag (refEnv 2) (Call.solve_modified_vertDeflect windyBullet) v =
      v ^ 2 / 5000) ∧
    gravityX (refEnv 2) windyBullet.toSolveArgs = 32.194 ∧
    gravityY (refEnv 2) windyBullet.toSolveArgs = 0 ∧
    (Ballistics_solve.init (refEnv 2) junkHeap windyBullet.toSolveArgs).vx = 1 ∧
    (Ballistics_solve.init (refEnv 2) junkHeap windyBullet.toSolveArgs).vy = 0 ∧
    (Ballistics_solve.init (refEnv 2) junkHeap windyBullet.toSolveArgs).y = -1 / 8 := by
  refine ⟨?_, ?_, ?_, ?_, ?_, ?_⟩
  · intro v
    have h90 : refCos (refDegToRad 90) = 0 := by
      norm_num [refCos, refDegToRad, refPi]
    simp only [Call.drag, refEnv, windyBullet, slowBullet, slowShot, h90]
    ring
  · norm_num [gravityX, refEnv, windyBullet, slowBullet, slowShot, refSin, refDegToRad, refPi]
  · norm_num [gravityY, refEnv, windyBullet, slowBullet, slowShot, refCos, refDegToRad, refPi]
  · norm_num [Ballistics_solve.init, refEnv, windyBullet, slowBullet, slowShot, refCos,
      refDegToRad, refPi]
  · norm_num [Ballistics_solve.init, refEnv, windyBullet, slowBullet, slowShot, refSin,
      refDegToRad, refPi]
  · norm_num [Ballistics_solve.init, windyBullet, slowBullet, slowShot]

/-- The table `Ballistics_solve_modified_vertDeflect` returns for `windyBullet`:
the second pass is entered at `x = 4.524225` ft and `y = -1/8` ft with speed
17.0969 ft/s and stores sample 1, whose path is `y*12` plus the tangent of the
deflection angle times `x`. -/
theorem windyDrop_row1 :
    ∃ b, Ballistics_solve_modified_vertDeflect (refEnv 2) junkHeap 2 windyBullet =
        Outcome.done (b, 2) ∧
      ∃ p, b.yardages[1]? = some p ∧
        p.path_inches = -1 / 8 * 12 +
          (refEnv 2).tan (windDeflectionOffsetRad (refEnv 2) windyBullet (170969 / 10000)) *
            (180969 / 40000) := by
  obtain ⟨hdrag, hgx, hgy, hvx, hvy, hy⟩ := windyBullet_consts
  have hlen : (Ballistics_solve.init (refEnv 2) junkHeap windyBullet.toSolveArgs).yardages.length
      = 2 := by
    simp [Ballistics_solve.init, Ballistics_alloc, refEnv]
  cases hb1 : Call.pass (refEnv 2) (Call.solve_modified_vertDeflect windyBullet)
      (Ballistics_solve.init (refEnv 2) junkHeap windyBullet.toSolveArgs) with
  | none =>
    exact absurd hb1 (Call.pass_safe _ _ _ (by rw [hlen]; simp [Ballistics_solve.init]))
  | some s1 =>
    have m := Call.pass_motion _ _ _ s1 hb1
    have st := Call.pass_step _ _ _ s1 hb1
    simp only [Call.args] at m
    rw [hgx, hgy] at m
    have hv : s1.v = 1 := by
      rw [m.v_eq, hvx, hvy, refEnv_sqrt_sq]
      norm_num
    have hdt : s1.dt = 1 / 2 := by
      rw [m.dt_eq, hv]
      norm_num
    have hdv : s1.dv = 1 / 5000 := by
      rw [m.dv_eq, hdrag, hv]
      norm_num
    have hvy1 : s1.vy = 0 := by
      rw [m.vy_eq, m.dvy_eq, hvy]
      simp
    have hvx1 : s1.vx = 170969 / 10000 := by
      rw [m.vx_eq, m.dvx_eq, hvx, hv, hdt, hdv]
      norm_num
    have hx1 : s1.x = 180969 / 40000 := by
      rw [m.x_eq, m.vx1_eq, hvx, hdt, hvx1]
      simp only [Ballistics_solve.init]
      norm_num
    have hy1 : s1.y = -1 / 8 := by
      rw [m.y_eq, m.vy1_eq, hvy, hvy1, hy]
      norm_num
    have hn1 : s1.n = 1 ∧ s1.yardages.length = 2 := by
      rcases st.2.2 with ⟨hno, _⟩ | ⟨_, p, q, hp, h1, h2, _⟩
      · exact absurd (by simp [Ballistics_solve.init]) hno
      · exact ⟨h2, by rw [h1, List.length_set, hlen]⟩
    have ht1 : exitTest (refEnv 2) s1 = false := by
      simp [exitTest, hvy1, hn1.1, refEnv]
    cases hb2 : Call.pass (refEnv 2) (Call.solve_modified_vertDeflect windyBullet)
        (advance s1) with
    | none => exact absurd hb2 (Call.pass_safe _ _ _ (by simp [advance, hn1.1, hn1.2]))
    | some s2 =>
      have m2 := Call.pass_motion _ _ _ s2 hb2
      have hv2 : s2.v = 170969 / 10000 := by
        rw [m2.v_eq]
        simp only [advance, hvx1, hvy1]
        rw [refEnv_sqrt_sq]
        norm_num [abs_of_pos]
      have hr2 : Ballistics_solve_modified_vertDeflect.pass (refEnv 2) windyBullet
          (advance s1) = some s2 := hb2
      rcases (vertDeflect_pass_row _ _ _ s2 hr2).2.2 with
        ⟨hno, _⟩ | ⟨_, p, q, hp, h1, h2, _, _, _, hq⟩
      · exact absurd (by simp only [advance, hn1.1, hx1]; norm_num) hno
      · have hn2 : s2.n = 2 := by
          rw [h2]
          simp [advance, hn1.1]
        have ht2 : exitTest (refEnv 2) s2 = true := by
          simp [exitTest, hn2, refEnv]
        refine ⟨(finish s2).1, ?_, q, ?_, ?_⟩
        · rw [Call.run_vertDeflect, Call.run_two_passes _ _ _ s1 s2 hb1 ht1 hb2 ht2]
          simp [finish, hn2]
        · simp only [finish]
          have hn0 : (advance s1).n = 1 := by simp [advance, hn1.1]
          rw [h1, hn0]
          have h0 := (getElem?_set_stored (q := q) hp).1
          rw [hn0] at h0
          exact h0
        · rw [hq]
          simp only [Ballistics_solve_modified_vertDeflect.row, advance, hv2, hx1, hy1]

/-- C17 fails on the code: the deflection term `tan(...) * x` is added to the
path in feet, without the factor 12. For `windyBullet`, sample 1 is stored at
`y = -1/8` ft and `x = 4.524225` ft; its `path_inches` is
`y*12 + tan(...)*x`, which differs from `12 * (y + tan(...)*x)`. -/
theorem C17_deflection_added_in_feet :
    ∃ b, Ballistics_solve_modified_vertDeflect (refEnv 2) junkHeap 2 windyBullet =
        Outcome.done (b, 2) ∧
      ∃ p, b.yardages[1]? = some p ∧
        p.path_inches = -1 / 8 * 12 +
          (refEnv 2).tan (windDeflectionOffsetRad (refEnv 2) windyBullet (170969 / 10000)) *
            (180969 / 40000) ∧
        p.path_inches ≠ 12 * (-1 / 8 +
          (refEnv 2).tan (windDeflectionOffsetRad (refEnv 2) windyBullet (170969 / 10000)) *
            (180969 / 40000)) := by
  obtain ⟨b, hrun, p, hp, hpath⟩ := windyDrop_row1
  refine ⟨b, hrun, p, hp, hpath, ?_⟩
  have hT := windyBullet_tan_pos
  rw [hpath]
  intro heq
  have : (refEnv 2).tan (windDeflectionOffsetRad (refEnv 2) windyBullet (170969 / 10000)) *
      (180969 / 40000) = 0 := by linarith
  have h2 : 0 < (refEnv 2).tan
      (windDeflectionOffsetRad (refEnv 2) windyBullet (170969 / 10000)) * (180969 / 40000) :=
    mul_pos hT (by norm_num)
  linarith

/-! ## Closed instances of the further claims -/

/-- In `refEnv` the cube root and the power `pow(·, 1.83)` are positive on
positive numbers, there is no crosswind and no windage without wind, the form
factor 1.0 leaves the retardation as it is, and `tan 0 = 0`. -/
theorem refEnv_laws (cap : Nat) :
    (∀ x : ℚ, 0 < x → 0 < (refEnv cap).cbrt x) ∧
    (∀ t : ℚ, 0 < t → 0 < (refEnv cap).pow t 1.83) ∧
    (∀ wind_angle : ℚ, (refEnv cap).crosswind 0 wind_angle = 0) ∧
    (∀ vi x t : ℚ, (refEnv cap).windage 0 vi x t = 0) ∧
    (∀ (drag_function : DragFunction) (drag_coefficient v : ℚ),
      (refEnv cap).retardModified drag_function drag_coefficient v 1.0 =
        (refEnv cap).retard drag_function drag_coefficient v) ∧
    (refEnv cap).tan 0 = 0 := by
  refine ⟨?_, ?_, ?_, ?_, ?_, ?_⟩
  · intro x hx
    simp only [refEnv]
    linarith
  · intro t ht
    have h : ¬ (1.83 : ℚ) = 0.5 := by norm_num
    simp only [refEnv, h, if_false]
    have h1 : 0 < (1.83 - 1) * t ^ 2 := by positivity
    have h2 : 0 < (2 - 1.83) * t := mul_pos (by norm_num) ht
    linarith
  · intro wind_angle
    simp [refEnv]
  · intro vi x t
    simp [refEnv]
  · intro drag_function drag_coefficient v
    simp only [refEnv]
    norm_num
  · simp [refEnv]

/-- The states in which the passes of the run of a `slowShot` straight down
are entered have a non-zero velocity along the bore. -/
theorem slowDrop_entry_velocity (c : Call ℚ)
    (hc : c = Call.solve (slowShot (-90)) ∨
      c = Call.solve_modified_vertDeflect (slowBullet (-90))) :
    ∀ k s, passStart (c.pass (refEnv 2)) (exitTest (refEnv 2)) k
      (Ballistics_solve.init (refEnv 2) junkHeap c.args) = some s → s.vx ≠ 0 ∨ s.vy ≠ 0 := by
  obtain ⟨s1, s2, hb1, ht1, hb2, ht2, _, _, _, _⟩ := slowDrop_passes c hc
  obtain ⟨s1', hb1', _, _, _, hvy, hvx, _, _, _, _⟩ :=
    slowShot_first_pass 2 (by norm_num) (-90) (Or.inr rfl) c hc
  obtain ⟨hargs, _, _, _, hvx0, hvy0⟩ := slowShot_consts 2 (-90) (Or.inr rfl) c hc
  have hs1 : s1' = s1 := by
    have := hb1'.symm.trans hb1
    simpa using this
  subst hs1
  intro k s hk
  left
  match k with
  | 0 =>
    simp only [passStart, Option.some.injEq] at hk
    rw [← hk, hargs, hvx0]
    norm_num
  | 1 =>
    simp only [passStart, hb1, ht1, Bool.false_eq_true, if_false, Option.some.injEq] at hk
    rw [← hk]
    simp only [advance, hvx]
    norm_num
  | k + 2 =>
    simp [passStart, hb1, ht1, hb2, ht2] at hk

/-- The square root of `refEnv` is positive on positive numbers. -/
theorem refEnv_sqrt_pos (cap : Nat) (x : ℚ) (hx : 0 < x) : 0 < (refEnv cap).pow x 0.5 := by
  have hnum : 0 < x.num := Rat.num_pos.mpr hx
  have hs : Int.sqrt x.num ≠ 0 := by
    rw [Int.sqrt]
    have : 0 < Nat.sqrt x.num.toNat := Nat.sqrt_pos.mpr (by omega)
    exact_mod_cast ne_of_gt this
  have hd : Nat.sqrt x.den ≠ 0 := ne_of_gt (Nat.sqrt_pos.mpr x.den_pos)
  have hne : Rat.sqrt x ≠ 0 := by
    rw [Rat.sqrt, Rat.mkRat_ne_zero hd]
    exact hs
  simp only [refEnv, if_true]
  exact lt_of_le_of_ne (Rat.sqrt_nonneg x) (Ne.symm hne)

/-- The first pass of the `stallShot` takes all of its speed: the second pass
is entered with `vx = 0` and `vy = 0`. -/
theorem stallShot_stalls :
    ∃ s, passStart (Ballistics_solve.pass (refEnv 2) stallShot) (exitTest (refEnv 2)) 1
        (Ballistics_solve.init (refEnv 2) junkHeap stallShot) = some s ∧
      s.vx = 0 ∧ s.vy = 0 := by
  have hlen : (Ballistics_solve.init (refEnv 2) junkHeap stallShot).yardages.length = 2 := by
    simp [Ballistics_solve.init, Ballistics_alloc, refEnv]
  have hvx0 : (Ballistics_solve.init (refEnv 2) junkHeap stallShot).vx = 41 / 10 := by
    norm_num [Ballistics_solve.init, refEnv, stallShot, refCos, refDegToRad, refPi]
  have hvy0 : (Ballistics_solve.init (refEnv 2) junkHeap stallShot).vy = 0 := by
    norm_num [Ballistics_solve.init, refEnv, stallShot, refSin, refDegToRad, refPi]
  have hgx : gravityX (refEnv 2) stallShot = -32.194 := by
    norm_num [gravityX, refEnv, stallShot, refSin, refDegToRad, refPi]
  have hgy : gravityY (refEnv 2) stallShot = 0 := by
    norm_num [gravityY, refEnv, stallShot, refCos, refDegToRad, refPi]
  have hdrag : ∀ v, Call.drag (refEnv 2) (Call.solve stallShot) v = v ^ 2 * 1426 / 16810 := by
    intro v
    simp [Call.drag, refEnv, stallShot, refCos, refDegToRad]
    ring
  cases hb : Ballistics_solve.pass (refEnv 2) stallShot
      (Ballistics_solve.init (refEnv 2) junkHeap stallShot) with
  | none => exact absurd hb (solve_pass_safe _ _ _ (by rw [hlen]; simp [Ballistics_solve.init]))
  | some s1 =>
    have m := solve_pass_motion _ _ _ s1 hb
    have st := solve_pass_step _ _ _ s1 hb
    rw [hgx, hgy] at m
    have hv : s1.v = 41 / 10 := by
      rw [m.v_eq, hvx0, hvy0, refEnv_sqrt_sq]
      norm_num [abs_of_pos]
    have hdt : s1.dt = 5 / 41 := by
      rw [m.dt_eq, hv]
      norm_num
    have hdv : s1.dv = 1426 / 1000 := by
      rw [m.dv_eq, hdrag, hv]
      norm_num
    have hvy1 : s1.vy = 0 := by
      rw [m.vy_eq, m.dvy_eq, hvy0]
      simp
    have hvx1 : s1.vx = 0 := by
      rw [m.vx_eq, m.dvx_eq, hvx0, hv, hdt, hdv]
      norm_num
    have hn : s1.n = 1 := by
      rcases st.2.2 with ⟨hno, _⟩ | ⟨_, _, _, _, _, h2, _⟩
      · exact absurd (by simp [Ballistics_solve.init]) hno
      · exact h2
    have ht : exitTest (refEnv 2) s1 = false := by
      simp [exitTest, hvy1, hvx1, hn, refEnv]
    exact ⟨advance s1, by simp [passStart, hb, ht], hvx1, hvy1⟩

/-- C15 fails as stated. With positive velocity, caliber, bullet length, twist
and pressure, the first pass of both solvers on the shot straight down stores
sample 0 and divides by `x = 0`. And a positive initial velocity does not keep
the speed from zero: the `stallShot` enters its second pass at rest and
divides by the speed `v = 0`. -/
theorem C15_zero_divisors_occur :
    ((0 : ℚ) < (slowBullet (-90)).vi ∧ (0 : ℚ) < (slowBullet (-90)).caliberInInches ∧
      (0 : ℚ) < (slowBullet (-90)).bulletLengthInInches ∧
      (0 : ℚ) < (slowBullet (-90)).twistDenominator ∧ (0 : ℚ) < (slowBullet (-90)).inHg) ∧
    (Divisor.downrange, (0 : ℚ)) ∈
      (Ballistics_solve.passTraced (refEnv 2) (slowShot (-90))
        (Ballistics_solve.init (refEnv 2) junkHeap (slowShot (-90)))).2 ∧
    (Divisor.downrange, (0 : ℚ)) ∈
      (Ballistics_solve_modified_vertDeflect.passTraced (refEnv 2) (slowBullet (-90))
        (Ballistics_solve.init (refEnv 2) junkHeap (slowBullet (-90)).toSolveArgs)).2 ∧
    (0 : ℚ) < stallShot.vi ∧
    ∃ s, passStart (Ballistics_solve.pass (refEnv 2) stallShot) (exitTest (refEnv 2)) 1
        (Ballistics_solve.init (refEnv 2) junkHeap stallShot) = some s ∧
      (Divisor.speed, (0 : ℚ)) ∈ (Ballistics_solve.passTraced (refEnv 2) stallShot s).2 := by
  have hc : ∀ a : SolveArgs ℚ, ((Ballistics_solve.init (refEnv 2) junkHeap a).n : ℚ) ≤
      (Ballistics_solve.init (refEnv 2) junkHeap a).x / 3 := by
    intro a
    simp [Ballistics_solve.init]
  have hn : ∀ a : SolveArgs ℚ, (Ballistics_solve.init (refEnv 2) junkHeap a).n <
      (Ballistics_solve.init (refEnv 2) junkHeap a).yardages.length := by
    intro a
    simp [Ballistics_solve.init, Ballistics_alloc, refEnv]
  refine ⟨⟨by norm_num [slowBullet, slowShot], by norm_num [slowBullet],
    by norm_num [slowBullet], by norm_num [slowBullet], by norm_num [slowBullet]⟩, ?_, ?_,
    by norm_num [stallShot], ?_⟩
  · exact Call.passTraced_downrange (refEnv 2) (Call.solve (slowShot (-90))) _ (hc _) (hn _)
  · exact Call.passTraced_downrange (refEnv 2)
      (Call.solve_modified_vertDeflect (slowBullet (-90))) _ (hc _) (hn _)
  · obtain ⟨s, hs, hvx, hvy⟩ := stallShot_stalls
    refine ⟨s, hs, ?_⟩
    have h := Call.passTraced_speed (refEnv 2) (Call.solve stallShot) s
    rw [hvx, hvy, refEnv_sqrt_sq, abs_zero] at h
    exact h

/-- The corrected solver on the shot straight down: the inputs are positive,
the velocity is non-zero on entry to both passes, the only zero divisor is
`x` in the first pass, and the first pass does divide by `x = 0`. -/
theorem C15_zero_divisors_only_at_muzzle_witness :
    (0 : ℚ) < (Call.args (Call.solve_modified_vertDeflect (slowBullet (-90)))).vi ∧
    ((refEnv 2).cos ((refEnv 2).deg_to_rad
        (Call.args (Call.solve_modified_vertDeflect (slowBullet (-90)))).zero_angle) ≠ 0 ∨
      (refEnv 2).sin ((refEnv 2).deg_to_rad
        (Call.args (Call.solve_modified_vertDeflect (slowBullet (-90)))).zero_angle) ≠ 0) ∧
    (∀ x : ℚ, 0 < x → 0 < (refEnv 2).pow x 0.5) ∧
    ((0 : ℚ) < (slowBullet (-90)).caliberInInches ∧
      (0 : ℚ) < (slowBullet (-90)).bulletLengthInInches ∧
      (0 : ℚ) < (slowBullet (-90)).twistDenominator ∧ (0 : ℚ) < (slowBullet (-90)).inHg) ∧
    (∀ k s, passStart (Call.pass (refEnv 2) (Call.solve_modified_vertDeflect (slowBullet (-90))))
      (exitTest (refEnv 2)) (k + 1)
      (Ballistics_solve.init (refEnv 2) junkHeap
        (Call.args (Call.solve_modified_vertDeflect (slowBullet (-90))))) = some s →
      s.vx ≠ 0 ∨ s.vy ≠ 0) ∧
    (∀ e ∈ (Ballistics_solve.initTraced (refEnv 2) junkHeap
        (Call.args (Call.solve_modified_vertDeflect (slowBullet (-90))))).2, e.2 ≠ 0) ∧
    (∀ k s, passStart (Call.pass (refEnv 2) (Call.solve_modified_vertDeflect (slowBullet (-90))))
      (exitTest (refEnv 2)) k
      (Ballistics_solve.init (refEnv 2) junkHeap
        (Call.args (Call.solve_modified_vertDeflect (slowBullet (-90))))) = some s →
      ∀ e ∈ (Call.passTraced (refEnv 2)
          (Call.solve_modified_vertDeflect (slowBullet (-90))) s).2, e.2 = 0 →
        k = 0 ∧ e.1 = Divisor.downrange ∧ s.n = 0 ∧ s.x = 0) ∧
    1 ≤ (refEnv 2).BALLISTICS_COMPUTATION_MAX_YARDS ∧
    (Divisor.downrange, (0 : ℚ)) ∈
      (Call.passTraced (refEnv 2) (Call.solve_modified_vertDeflect (slowBullet (-90)))
        (Ballistics_solve.init (refEnv 2) junkHeap
          (Call.args (Call.solve_modified_vertDeflect (slowBullet (-90)))))).2 := by
  have hcap : 1 ≤ (refEnv 2).BALLISTICS_COMPUTATION_MAX_YARDS := by simp [refEnv]
  have hvi : (0 : ℚ) < (Call.args (Call.solve_modified_vertDeflect (slowBullet (-90)))).vi := by
    norm_num [Call.args, slowBullet, slowShot]
  have htrig : (refEnv 2).cos ((refEnv 2).deg_to_rad
        (Call.args (Call.solve_modified_vertDeflect (slowBullet (-90)))).zero_angle) ≠ 0 ∨
      (refEnv 2).sin ((refEnv 2).deg_to_rad
        (Call.args (Call.solve_modified_vertDeflect (slowBullet (-90)))).zero_angle) ≠ 0 := by
    left
    norm_num [Call.args, slowBullet, slowShot, refEnv, refCos, refDegToRad, refPi]
  have hbullet : (0 : ℚ) < (slowBullet (-90)).caliberInInches ∧
      (0 : ℚ) < (slowBullet (-90)).bulletLengthInInches ∧
      (0 : ℚ) < (slowBullet (-90)).twistDenominator ∧ (0 : ℚ) < (slowBullet (-90)).inHg :=
    ⟨by norm_num [slowBullet], by norm_num [slowBullet], by norm_num [slowBullet],
      by norm_num [slowBullet]⟩
  have hmove := fun k => slowDrop_entry_velocity
    (Call.solve_modified_vertDeflect (slowBullet (-90))) (Or.inr rfl) (k + 1)
  have h := C15_zero_divisors_only_at_muzzle (refEnv 2) junkHeap
    (Call.solve_modified_vertDeflect (slowBullet (-90))) hvi htrig (refEnv_sqrt_pos 2)
    (fun a ha => by
      have : slowBullet (-90) = a := by
        injection ha
      rw [← this]
      exact hbullet)
    hmove
  exact ⟨hvi, htrig, refEnv_sqrt_pos 2, hbullet, hmove, h.2.1, h.2.2.1, hcap, h.2.2.2 hcap⟩

/-- C18 fails as stated in `double` arithmetic: for a sight height of 1.55
inches, `y = -sight_height/12` is rounded and `y*12` is rounded again, so
that sample 0 gets the path -1.5500000000000003 (6980579422424270/2^52 in
magnitude), one unit in the last place away from `-sight_height`. -/
theorem C18_path_differs_from_sight_height :
    binary64 1.55 = some (6980579422424269 / 2 ^ 52) ∧
    Ballistics_solve.yBinary64 (6980579422424269 / 2 ^ 52) =
      some (-(4653719614949513 / 2 ^ 55)) ∧
    Ballistics_solve.pathBinary64 (-(4653719614949513 / 2 ^ 55)) =
      some (-(6980579422424270 / 2 ^ 52)) ∧
    Ballistics_solve.firstPathBinary64 (6980579422424269 / 2 ^ 52) =
      some (-(6980579422424270 / 2 ^ 52)) ∧
    (-(6980579422424270 / 2 ^ 52) : ℚ) ≠ -(6980579422424269 / 2 ^ 52) := by
  have hs : binary64 1.55 = some (6980579422424269 / 2 ^ 52) := by
    have h := binary64_eq 1.55 0 6980579422424269 (by norm_num) (by norm_num [abs_of_pos])
      (by norm_num [abs_of_pos])
      (by
        apply roundHalfEven_eq _ 6980579422424268
        · norm_num
        · norm_num)
      (by norm_num [abs_of_pos])
    rw [h]
    norm_num
  have hy : Ballistics_solve.yBinary64 (6980579422424269 / 2 ^ 52) =
      some (-(4653719614949513 / 2 ^ 55)) := by
    have h := binary64_eq (-(6980579422424269 / 2 ^ 52) / 12) (-3) (-4653719614949513)
      (by norm_num) (by norm_num [abs_of_neg]) (by norm_num [abs_of_neg])
      (by
        apply roundHalfEven_eq _ (-4653719614949513)
        · norm_num
        · norm_num)
      (by norm_num [abs_of_neg])
    rw [Ballistics_solve.yBinary64, h]
    norm_num
  have hp : Ballistics_solve.pathBinary64 (-(4653719614949513 / 2 ^ 55)) =
      some (-(6980579422424270 / 2 ^ 52)) := by
    have h := binary64_eq (-(4653719614949513 / 2 ^ 55) * 12) 0 (-6980579422424270)
      (by norm_num) (by norm_num [abs_of_neg]) (by norm_num [abs_of_neg])
      (by
        apply roundHalfEven_eq _ (-6980579422424270)
        · norm_num
        · norm_num)
      (by norm_num [abs_of_neg])
    rw [Ballistics_solve.pathBinary64, h]
    norm_num
  refine ⟨hs, hy, hp, ?_, by norm_num⟩
  simp only [Ballistics_solve.firstPathBinary64, hy, Option.some_bind, hp]

/-- The corrected solver on the shot straight down in still air: both rows
have windage 0 and a corrected windage equal to the spin drift. -/
theorem C12_zero_wind_windage_witness :
    (slowBullet (-90)).wind_speed = 0 ∧
    (∀ wind_angle : ℚ, (refEnv 2).crosswind 0 wind_angle = 0) ∧
    (∀ vi x t : ℚ, (refEnv 2).windage 0 vi x t = 0) ∧
    ∃ b, Ballistics_solve_modified_vertDeflect (refEnv 2) junkHeap 2 (slowBullet (-90)) =
        Outcome.done (b, 2) ∧
      ∀ i : Nat, (i : Int) < 2 → ∃ p, b.yardages[i]? = some p ∧
        p.windage_inches = 0 ∧ p.corrected_windage = p.spindrift_inches := by
  obtain ⟨_, _, hcross, hwindage, _, _⟩ := refEnv_laws 2
  obtain ⟨b, hb, _⟩ :=
    slowDrop_run (Call.solve_modified_vertDeflect (slowBullet (-90))) (Or.inr rfl)
  rw [← Call.run_vertDeflect] at hb
  exact ⟨rfl, hcross, hwindage, b, hb,
    C12_zero_wind_windage _ _ _ _ rfl hcross hwindage b 2 hb⟩

/-- The two solvers on the shot straight down in still air with form factor
1.0: both return 2 and their rows agree in the nine common fields. -/
theorem C13_solvers_agree_witness :
    (slowBullet (-90)).formFactor = 1.0 ∧
    (∀ (drag_function : DragFunction) (drag_coefficient v : ℚ),
      (refEnv 2).retardModified drag_function drag_coefficient v 1.0 =
        (refEnv 2).retard drag_function drag_coefficient v) ∧
    (refEnv 2).crosswind (slowBullet (-90)).wind_speed (slowBullet (-90)).wind_angle = 0 ∧
    (refEnv 2).tan 0 = 0 ∧
    ∃ b b', Ballistics_solve (refEnv 2) junkHeap 2 (slowBullet (-90)).toSolveArgs =
        Outcome.done (b, 2) ∧
      Ballistics_solve_modified_vertDeflect (refEnv 2) junkHeap 2 (slowBullet (-90)) =
        Outcome.done (b', 2) ∧
      ∀ i : Nat, (i : Int) < 2 → ∃ p q, b.yardages[i]? = some p ∧
        b'.yardages[i]? = some q ∧ SameRow p q := by
  obtain ⟨_, _, hcross, _, hret, htan⟩ := refEnv_laws 2
  have hcw : (refEnv 2).crosswind (slowBullet (-90)).wind_speed
      (slowBullet (-90)).wind_angle = 0 := hcross _
  obtain ⟨b, hb, _⟩ := slowDrop_run (Call.solve (slowShot (-90))) (Or.inl rfl)
  rw [← Call.run_solve] at hb
  obtain ⟨b', hb', hrows⟩ :=
    (C13_solvers_agree (refEnv 2) junkHeap 2 (slowBullet (-90)) rfl hret hcw htan).1 b 2 hb
  exact ⟨rfl, hret, hcw, htan, b, b', hb, hb', hrows⟩

/-- The solver `Ballistics_solve` on the shot straight down with a sight height
of 1.5 inches: the first pass stores sample 0, the returned count is 2, and
sample 0 has range 0 and the path `(-1.5/12)*12`; and in `double` arithmetic
the path for the sight height 1.55 is within the fraction `2^(-51)` of -1.55. -/
theorem C18_first_pass_records_witness :
    1 ≤ (refEnv 2).BALLISTICS_COMPUTATION_MAX_YARDS ∧
    (∃ s1, Call.pass (refEnv 2) (Call.solve (slowShot (-90)))
      (Ballistics_solve.init (refEnv 2) junkHeap (slowShot (-90))) = some s1 ∧ s1.n = 1 ∧
      s1.writes = [0]) ∧
    (∃ b, Call.run (refEnv 2) junkHeap 2 (Call.solve (slowShot (-90))) = Outcome.done (b, 2) ∧
      ∃ p, b.yardages[0]? = some p ∧ p.range_yards = 0 ∧
        p.path_inches = -(slowShot (-90)).sight_height / 12 * 12) ∧
    (2 : ℚ) ^ (-1018 : ℤ) ≤ |(6980579422424269 / 2 ^ 52 : ℚ)| ∧
    |(6980579422424269 / 2 ^ 52 : ℚ)| ≤ (2 : ℚ) ^ (1000 : ℤ) ∧
    ∃ p, Ballistics_solve.firstPathBinary64 (6980579422424269 / 2 ^ 52) = some p ∧
      |p - -(6980579422424269 / 2 ^ 52)| ≤
        |(6980579422424269 / 2 ^ 52 : ℚ)| * (2 : ℚ) ^ (-51 : ℤ) := by
  have hcap : 1 ≤ (refEnv 2).BALLISTICS_COMPUTATION_MAX_YARDS := by simp [refEnv]
  have hlo : (2 : ℚ) ^ (-1018 : ℤ) ≤ |(6980579422424269 / 2 ^ 52 : ℚ)| := by
    norm_num [abs_of_pos]
  have hhi : |(6980579422424269 / 2 ^ 52 : ℚ)| ≤ (2 : ℚ) ^ (1000 : ℤ) := by
    norm_num [abs_of_pos]
  obtain ⟨b, hb, _⟩ := slowDrop_run (Call.solve (slowShot (-90))) (Or.inl rfl)
  have h := C18_first_pass_records (refEnv 2) junkHeap (Call.solve (slowShot (-90))) hcap
  obtain ⟨_, p, hp, hr, hpath⟩ := h.2.1 2 b 2 hb
  exact ⟨hcap, h.1, ⟨b, hb, p, hp, hr, hpath _ rfl⟩, hlo, hhi, h.2.2 _ hlo hhi⟩

/-- The corrected solver on the shot straight down: the rows 0 and 1 have
ranges of at least 0 and 1 and were stored in this order, once each. -/
theorem C19_rows_once_in_order_witness :
    ∃ b, Call.run (refEnv 2) junkHeap 2
        (Call.solve_modified_vertDeflect (slowBullet (-90))) = Outcome.done (b, 2) ∧
      (∀ i : Nat, (i : Int) < 2 → ∃ p, b.yardages[i]? = some p ∧ (i : ℚ) ≤ p.range_yards) ∧
      ∃ s, forLoop (Call.pass (refEnv 2) (Call.solve_modified_vertDeflect (slowBullet (-90))))
          (exitTest (refEnv 2)) 2
          (Ballistics_solve.init (refEnv 2) junkHeap (slowBullet (-90)).toSolveArgs) =
          Outcome.done s ∧ (s.n : Int) = 2 ∧ s.writes = List.range s.n ∧ s.writes.Nodup := by
  obtain ⟨b, hb, _⟩ :=
    slowDrop_run (Call.solve_modified_vertDeflect (slowBullet (-90))) (Or.inr rfl)
  have h := C19_rows_once_in_order (refEnv 2) junkHeap 2 _ b 2 hb
  exact ⟨b, hb, h.1, h.2.1⟩

/-- The corrected solver on the shot straight down: the speed is positive in
both passes, and both rows have a negative spin drift and a corrected windage
below the windage. -/
theorem C20_stability_positive_spin_negative_witness :
    (∀ x : ℚ, 0 < x → 0 < (refEnv 2).cbrt x) ∧
    (∀ t : ℚ, 0 < t → 0 < (refEnv 2).pow t 1.83) ∧
    (0 : ℚ) < (slowBullet (-90)).bulletGrains ∧ (0 : ℚ) < (slowBullet (-90)).twistDenominator ∧
    (0 : ℚ) < (slowBullet (-90)).caliberInInches ∧
    (0 : ℚ) < (slowBullet (-90)).bulletLengthInInches ∧ (0 : ℚ) < (slowBullet (-90)).inHg ∧
    (-460 : ℚ) < (slowBullet (-90)).temp ∧
    (∀ k s', passEnd (Ballistics_solve_modified_vertDeflect.pass (refEnv 2) (slowBullet (-90)))
      (exitTest (refEnv 2)) k
      (Ballistics_solve.init (refEnv 2) junkHeap (slowBullet (-90)).toSolveArgs) = some s' →
      0 < s'.v) ∧
    ∃ b, Ballistics_solve_modified_vertDeflect (refEnv 2) junkHeap 2 (slowBullet (-90)) =
        Outcome.done (b, 2) ∧
      ∀ i : Nat, (i : Int) < 2 → ∃ p, b.yardages[i]? = some p ∧
        p.spindrift_inches < 0 ∧ p.corrected_windage < p.windage_inches := by
  obtain ⟨hcbrt, hpow, _, _, _, _⟩ := refEnv_laws 2
  have hv := slowDrop_speed (Call.solve_modified_vertDeflect (slowBullet (-90))) (Or.inr rfl)
  simp only [Call.pass, Call.args] at hv
  obtain ⟨b, hb, _⟩ :=
    slowDrop_run (Call.solve_modified_vertDeflect (slowBullet (-90))) (Or.inr rfl)
  rw [← Call.run_vertDeflect] at hb
  have hm : (0 : ℚ) < (slowBullet (-90)).bulletGrains := by norm_num [slowBullet]
  have htw : (0 : ℚ) < (slowBullet (-90)).twistDenominator := by norm_num [slowBullet]
  have hd : (0 : ℚ) < (slowBullet (-90)).caliberInInches := by norm_num [slowBullet]
  have hl : (0 : ℚ) < (slowBullet (-90)).bulletLengthInInches := by norm_num [slowBullet]
  have hp : (0 : ℚ) < (slowBullet (-90)).inHg := by norm_num [slowBullet]
  have ht : (-460 : ℚ) < (slowBullet (-90)).temp := by norm_num [slowBullet]
  exact ⟨hcbrt, hpow, hm, htw, hd, hl, hp, ht, hv, b, hb,
    (C20_stability_positive_spin_negative (refEnv 2) junkHeap 2 (slowBullet (-90))
      hcbrt hpow hm htw hd hl hp ht b 2 hb hv).2⟩

end LibBallistics
